import Mathlib

/-!
# animalrescue-go: the request/response engine

A shallow embedding of `src/animalrescue.go` (package `animalrescue`) and of the
resource facades that call it.

Conventions of the embedding.

* Go strings and byte slices are Lean strings; the model coincides with Go on
  ASCII text.
* A pointer that the code may find nil is an `Option`; a pointer field holds the
  value it points to at the moment the function that is being described returns.
* A Go function that can dereference a nil pointer returns an `Outcome`:
  either the values it returns or `panics`.
* A Go function returning `(T, error)` with exactly one of the two non-nil
  returns an `Except`; `Client.Do`, which can return both a response and an
  error, returns a record.
* Operations of the Go standard library are modelled next to the code that
  calls them: `url.Parse`, `http.Header`, `http.NewRequest` and `json.Unmarshal`
  for the error types of this package are written out; reference resolution,
  URL rendering, decoding into `http.Response` and decoding into the caller's
  own types are parameters (`Stdlib`, `json.Decoder`).
-/

namespace animalrescue

set_option linter.dupNamespace false

/-! ## Results of Go functions -/

/-- The result of running a Go function that may panic. -/
inductive Outcome (α : Type) where
  | returns (a : α)
  | panics
deriving DecidableEq, Repr

/-! ## Strings -/

namespace strings

/-- Go `strings.HasSuffix`. -/
def HasSuffix (s suffix : String) : Bool := suffix.data.isSuffixOf s.data

/-- Go `strings.Cut` on character lists, for a single-character separator:
the text before the first separator, and the text after it when there is one. -/
def cut (sep : Char) : List Char → List Char × Option (List Char)
  | [] => ([], none)
  | c :: cs => if c = sep then ([], some cs) else ((c :: (cut sep cs).1), (cut sep cs).2)

/-- The text before the last occurrence of the separator and the text from that
occurrence on (separator included), when there is one. -/
def splitLast (sep : Char) : List Char → Option (List Char × List Char)
  | [] => none
  | c :: cs =>
    match splitLast sep cs with
    | some (a, b) => some (c :: a, b)
    | none => if c = sep then some ([], c :: cs) else none

/-- ASCII lower-casing of one character. -/
def lowerChar (c : Char) : Char :=
  if 'A' ≤ c ∧ c ≤ 'Z' then Char.ofNat (c.toNat + 32) else c

/-- ASCII upper-casing of one character. -/
def upperChar (c : Char) : Char :=
  if 'a' ≤ c ∧ c ≤ 'z' then Char.ofNat (c.toNat - 32) else c

def isAlpha (c : Char) : Bool := ('a' ≤ c && c ≤ 'z') || ('A' ≤ c && c ≤ 'Z')

def isDigit (c : Char) : Bool := '0' ≤ c && c ≤ '9'

def hexVal (c : Char) : Option Nat :=
  if '0' ≤ c ∧ c ≤ '9' then some (c.toNat - 48)
  else if 'a' ≤ c ∧ c ≤ 'f' then some (c.toNat - 87)
  else if 'A' ≤ c ∧ c ≤ 'F' then some (c.toNat - 55)
  else none

end strings

/-! ## net/url -/

namespace url

/-- Go `url.URL`, with the user information kept in its unparsed form. -/
structure URL where
  Scheme : String := ""
  Opaque : String := ""
  User : Option String := none
  Host : String := ""
  Path : String := ""
  RawPath : String := ""
  ForceQuery : Bool := false
  RawQuery : String := ""
  Fragment : String := ""
deriving DecidableEq, Repr

/-- The part of a URL that `unescape` is decoding. -/
inductive Mode where
  | path
  | host
  | zone
  | userPassword
  | fragment
deriving DecidableEq, Repr

/-- Go `shouldEscape`, for the modes used while parsing. -/
def shouldEscape (c : Char) (mode : Mode) : Bool :=
  if strings.isAlpha c || strings.isDigit c then false
  else if (mode = Mode.host ∨ mode = Mode.zone) ∧
      c ∈ ['!', '$', '&', Char.ofNat 39, '(', ')', '*', '+', ',', ';', '=', ':', '[', ']',
        '<', '>', '"'] then false
  else if c ∈ ['-', '_', '.', '~'] then false
  else if c ∈ ['$', '&', '+', ',', '/', ':', ';', '=', '?', '@'] then
    match mode with
    | Mode.path => c = '?'
    | Mode.userPassword => c = '@' ∨ c = '/' ∨ c = '?' ∨ c = ':'
    | Mode.fragment => false
    | _ => true
  else if mode = Mode.fragment ∧ c ∈ ['!', '(', ')', '*'] then false
  else true

/-- Go `unescape`: percent-decoding with the validity checks of the mode;
`none` is an `EscapeError` or `InvalidHostError`. -/
def unescape (mode : Mode) : List Char → Option (List Char)
  | [] => some []
  | '%' :: a :: b :: rest =>
    match strings.hexVal a, strings.hexVal b with
    | some x, some y =>
      if mode = Mode.host ∧ x < 8 ∧ (a, b) ≠ ('2', '5') then none
      else if mode = Mode.zone ∧
          (a, b) ≠ ('2', '5') ∧ Char.ofNat (x * 16 + y) ≠ ' ' ∧
          shouldEscape (Char.ofNat (x * 16 + y)) Mode.host then none
      else (unescape mode rest).map fun r => Char.ofNat (x * 16 + y) :: r
    | _, _ => none
  | '%' :: _ => none
  | c :: rest =>
    if (mode = Mode.host ∨ mode = Mode.zone) ∧ c.toNat < 128 ∧ shouldEscape c Mode.host then none
    else (unescape mode rest).map fun r => c :: r

def hexDigit (n : Nat) : Char := "0123456789ABCDEF".data.getD n '0'

/-- Go `escape`: percent-encoding of the characters that `shouldEscape` names. -/
def escape (mode : Mode) : List Char → List Char
  | [] => []
  | c :: rest =>
    if shouldEscape c mode then
      '%' :: hexDigit (c.toNat / 16) :: hexDigit (c.toNat % 16) :: escape mode rest
    else c :: escape mode rest

/-- Go `getScheme`: the scheme and the rest, `none` for a missing scheme before
a leading colon. -/
def getScheme (raw : List Char) : Option (List Char × List Char) :=
  let rec go : List Char → List Char → Option (List Char × List Char)
    | _, [] => some ([], raw)
    | acc, c :: cs =>
      if strings.isAlpha c then go (c :: acc) cs
      else if strings.isDigit c ∨ c = '+' ∨ c = '-' ∨ c = '.' then
        if acc.isEmpty then some ([], raw) else go (c :: acc) cs
      else if c = ':' then
        if acc.isEmpty then none else some (acc.reverse, cs)
      else some ([], raw)
  go [] raw

/-- Go `validOptionalPort`. -/
def validOptionalPort : List Char → Bool
  | [] => true
  | ':' :: ds => ds.all strings.isDigit
  | _ => false

/-- The position-free form of `strings.Index(s, "%25")`: the text before the
first `%25` and the text from it on. -/
def cutZone : List Char → Option (List Char × List Char)
  | [] => none
  | c :: cs =>
    if (c :: cs).take 3 = ['%', '2', '5'] then some ([], c :: cs)
    else (cutZone cs).map fun p => (c :: p.1, p.2)

/-- Go `parseHost`. -/
def parseHost (host : List Char) : Option (List Char) :=
  match host with
  | '[' :: _ =>
    match strings.splitLast ']' host with
    | none => none
    | some (before, fromBracket) =>
      if !validOptionalPort (fromBracket.drop 1) then none
      else
        match cutZone before with
        | some (h1, z) =>
          match unescape Mode.host h1, unescape Mode.zone z, unescape Mode.host fromBracket with
          | some a, some b, some c => some (a ++ b ++ c)
          | _, _, _ => none
        | none => unescape Mode.host host
  | _ =>
    match strings.splitLast ':' host with
    | some (_, colonPort) =>
      if !validOptionalPort colonPort then none else unescape Mode.host host
    | none => unescape Mode.host host

/-- Go `validUserinfo`. -/
def validUserinfo (s : List Char) : Bool :=
  s.all fun c =>
    strings.isAlpha c || strings.isDigit c ||
      c ∈ ['-', '.', '_', ':', '~', '!', '$', '&', Char.ofNat 39, '(', ')', '*', '+', ',', ';',
        '=', '%', '@']

/-- Go `parseAuthority`: the user information (unparsed) and the host. -/
def parseAuthority (authority : List Char) : Option (Option String × String) :=
  match strings.splitLast '@' authority with
  | none => (parseHost authority).map fun h => (none, String.mk h)
  | some (userinfo, atHost) =>
    match parseHost (atHost.drop 1) with
    | none => none
    | some h =>
      if !validUserinfo userinfo then none
      else
        match strings.cut ':' userinfo with
        | (name, none) =>
          (unescape Mode.userPassword name).map fun _ => (some (String.mk userinfo), String.mk h)
        | (name, some password) =>
          match unescape Mode.userPassword name, unescape Mode.userPassword password with
          | some _, some _ => some (some (String.mk userinfo), String.mk h)
          | _, _ => none

/-- Go `stringContainsCTLByte`. -/
def containsCTL (s : List Char) : Bool := s.any fun c => c.toNat < 32 || c.toNat = 127

/-- Go `parse` with `viaRequest` false: everything of `url.Parse` but the
fragment. -/
def parseNoFragment (raw : List Char) : Option URL :=
  if containsCTL raw then none
  else if raw = ['*'] then some { Path := "*" }
  else
    match getScheme raw with
    | none => none
    | some (scheme, rest0) =>
      let scheme := scheme.map strings.lowerChar
      let (rest, force, query) :=
        if rest0.getLast? = some '?' ∧ rest0.count '?' = 1 then (rest0.dropLast, true, [])
        else ((strings.cut '?' rest0).1, false, ((strings.cut '?' rest0).2).getD [])
      let base : URL := { Scheme := String.mk scheme, ForceQuery := force, RawQuery := String.mk query }
      if rest.head? ≠ some '/' ∧ !scheme.isEmpty then
        some { base with Opaque := String.mk rest }
      else if rest.head? ≠ some '/' ∧ ':' ∈ (strings.cut '/' rest).1 then none
      else
        let withPath (u : URL) (p : List Char) : Option URL :=
          (unescape Mode.path p).map fun path =>
            { u with Path := String.mk path, RawPath := if escape Mode.path path = p then "" else String.mk p }
        if (!scheme.isEmpty ∨ rest.take 3 ≠ ['/', '/', '/']) ∧ rest.take 2 = ['/', '/'] then
          let authority := (strings.cut '/' (rest.drop 2)).1
          let rest1 := (rest.drop 2).drop authority.length
          match parseAuthority authority with
          | none => none
          | some (user, host) => withPath { base with User := user, Host := host } rest1
        else withPath base rest

/-- Go `url.Parse`; `none` stands for a returned error. -/
def Parse (rawURL : String) : Option URL :=
  let (u, frag) := strings.cut '#' rawURL.data
  match parseNoFragment u, frag with
  | none, _ => none
  | some parsed, none => some parsed
  | some parsed, some [] => some parsed
  | some parsed, some f =>
    (unescape Mode.fragment f).map fun d => { parsed with Fragment := String.mk d }

end url

/-! ## context, io, net/http -/

namespace context

/-- A Go `context.Context`, by what `Client.Do` observes of it once the
transport has returned: whether the `Done` channel is ready, and what `Err`
returns. -/
structure Context where
  Done : Bool := false
  Err : Option String := none
deriving DecidableEq, Repr

/-- Go `context.Background()`. -/
def Background : Context := {}

end context

namespace http

/-- Go `httpguts.IsTokenRune`, which is also `validHeaderFieldByte`. -/
def isTokenChar (c : Char) : Bool :=
  strings.isAlpha c || strings.isDigit c ||
    c ∈ ['!', '#', '$', '%', '&', Char.ofNat 39, '*', '+', '-', '.', '^', '_', Char.ofNat 96,
      '|', '~']

/-- The letter case of a canonical header key: upper case at the start and
after each dash, lower case elsewhere. -/
def canonCase : Bool → List Char → List Char
  | _, [] => []
  | upper, c :: cs =>
    let d := if upper then strings.upperChar c else strings.lowerChar c
    d :: canonCase (d = '-') cs

/-- Go `textproto.CanonicalMIMEHeaderKey`. -/
def CanonicalHeaderKey (s : String) : String :=
  if s.data.all isTokenChar then String.mk (canonCase true s.data) else s

/-- Go `http.Header`: each key with its values. -/
abbrev Header := List (String × List String)

/-- Go `Header.Set`: the values of the canonical key are replaced by the one
value. -/
def Header.Set (h : Header) (key value : String) : Header :=
  (CanonicalHeaderKey key, [value]) :: h.filter fun p => p.1 ≠ CanonicalHeaderKey key

/-- Go `Header.Values`: the values of the canonical key, none when the key is
not set. -/
def Header.Values (h : Header) (key : String) : Option (List String) :=
  h.lookup (CanonicalHeaderKey key)

/-- Go `Header.Get`: the first value of the key, the empty string when there is
none. -/
def Header.Get (h : Header) (key : String) : String :=
  match h.Values key with
  | some (v :: _) => v
  | _ => ""

/-- Go `http.Request`, as far as this package builds and reads it. -/
structure Request where
  Method : String
  URL : url.URL
  Header : Header := []
  Body : Option String := none
  ctx : context.Context := context.Background
deriving DecidableEq, Repr

/-- The body of a response: a stream that yields `data` and then ends, with
end-of-input or with a read error, or a body that has been closed. -/
inductive Body where
  | stream (data : String) (err : Option String)
  | closed
deriving DecidableEq, Repr

/-- Go `http.Response`, as far as this package reads it. The body is never nil
(`http.Client` guarantees it); the request is a pointer. -/
structure Response where
  StatusCode : Int
  Header : Header := []
  Body : Body
  Request : Option Request
deriving DecidableEq, Repr

/-- Go `validMethod`. -/
def validMethod (method : String) : Bool := !method.data.isEmpty && method.data.all isTokenChar

end http

namespace ioutil

/-- Go `ioutil.ReadAll` on a response body: the bytes read and the error that
ended the reading, if it was not end-of-input. -/
def ReadAll : http.Body → String × Option String
  | http.Body.stream data err => (data, err)
  | http.Body.closed => ("", some "http: read on closed response body")

/-- Go `ioutil.NopCloser(bytes.NewBuffer(data))`. -/
def NopCloser (data : String) : http.Body := http.Body.stream data none

end ioutil

/-! ## The error values of the package -/

/-- Source `service`: a back-pointer to the client, which is modelled by the
address it holds. -/
structure service where
  client : Option Nat := none
deriving DecidableEq, Repr

/-- Source `Error`: more detail on an individual error. -/
structure Error where
  Resource : String := ""
  Field : String := ""
  Code : String := ""
  Message : String := ""
deriving DecidableEq, Repr

/-- Source `ErrorResponse`. -/
structure ErrorResponse where
  Response : Option http.Response
  Message : service := {}
  Errors : List Error := []
deriving DecidableEq, Repr

/-- A Go `error` value. -/
inductive GoError where
  /-- an error made by `errors.New` -/
  | errorString (msg : String)
  /-- an error made by `fmt.Errorf`, kept as the format and its rendered operands -/
  | errorf (format : String) (operands : List String)
  /-- the sentinel `io.EOF` -/
  | EOF
  /-- a `*url.Error` -/
  | urlError (Op URL Err : String)
  /-- an `*ErrorResponse` -/
  | errorResponse (e : ErrorResponse)
  /-- any other error of a library, by its message -/
  | other (msg : String)
deriving DecidableEq, Repr

/-- Go `http.Client`, by what its method `Do` returns for a request: a
response, or an error and no response that the caller looks at. -/
structure http.Client where
  Do : http.Request → Except GoError http.Response

/-! ## encoding/json -/

/-- A JSON value; a number keeps its literal. -/
inductive Json where
  | null
  | bool (b : Bool)
  | num (lit : String)
  | str (s : String)
  | arr (xs : List Json)
  | obj (kvs : List (String × Json))

/-- The operations of the Go standard library that the package calls and that
are left open here. -/
structure Stdlib where
  /-- Go `(*url.URL).ResolveReference` -/
  ResolveReference : url.URL → url.URL → url.URL
  /-- Go `(*url.URL).String` -/
  URLString : url.URL → String
  /-- What `encoding/json` does with a member value other than `null` that is
  addressed to a `*http.Response` field: it decodes in place into the response
  the pointer refers to, after allocating one when the pointer is nil (`none`).
  The result is that response afterwards, and whether an unmarshaler nested in
  it failed, which ends the decoding of the whole document. -/
  decodeResponse : Json → Option http.Response → http.Response × Bool
  /-- Go `&http.Client{}`: the client over the default transport -/
  zeroClient : http.Client

namespace json

def isSpace (c : Char) : Bool := c == ' ' || c == '\t' || c == '\r' || c == '\n'

def skipSpace : List Char → List Char
  | [] => []
  | c :: cs => if isSpace c then skipSpace cs else c :: cs

/-- Go `getu4`: the four hexadecimal digits of a `\u` escape. -/
def getu4 : List Char → Option (Nat × List Char)
  | a :: b :: c :: d :: rest =>
    match strings.hexVal a, strings.hexVal b, strings.hexVal c, strings.hexVal d with
    | some x, some y, some z, some w => some (((x * 16 + y) * 16 + z) * 16 + w, rest)
    | _, _, _, _ => none
  | _ => none

def isSurrogate (n : Nat) : Bool := 0xD800 ≤ n && n < 0xE000

/-- Go `utf16.DecodeRune`, `none` for a pair that is not a surrogate pair. -/
def decodePair (hi lo : Nat) : Option Nat :=
  if 0xD800 ≤ hi ∧ hi < 0xDC00 ∧ 0xDC00 ≤ lo ∧ lo < 0xE000 then
    some ((hi - 0xD800) * 0x400 + (lo - 0xDC00) + 0x10000)
  else none

/-- A string literal after its opening quote: the text it denotes and what
follows the closing quote. A lone surrogate escape denotes U+FFFD. -/
def scanString : Nat → List Char → List Char → Option (String × List Char)
  | 0, _, _ => none
  | _ + 1, [], _ => none
  | _ + 1, '"' :: rest, acc => some (String.mk acc.reverse, rest)
  | n + 1, '\\' :: rest, acc =>
    match rest with
    | '"' :: r => scanString n r ('"' :: acc)
    | '\\' :: r => scanString n r ('\\' :: acc)
    | '/' :: r => scanString n r ('/' :: acc)
    | 'b' :: r => scanString n r (Char.ofNat 8 :: acc)
    | 'f' :: r => scanString n r (Char.ofNat 12 :: acc)
    | 'n' :: r => scanString n r ('\n' :: acc)
    | 'r' :: r => scanString n r ('\r' :: acc)
    | 't' :: r => scanString n r ('\t' :: acc)
    | 'u' :: r =>
      match getu4 r with
      | none => none
      | some (rr, r1) =>
        if isSurrogate rr then
          match r1 with
          | '\\' :: 'u' :: r2 =>
            match getu4 r2 with
            | some (rr1, r3) =>
              match decodePair rr rr1 with
              | some d => scanString n r3 (Char.ofNat d :: acc)
              | none => scanString n r1 (Char.ofNat 0xFFFD :: acc)
            | none => scanString n r1 (Char.ofNat 0xFFFD :: acc)
          | _ => scanString n r1 (Char.ofNat 0xFFFD :: acc)
        else scanString n r1 (Char.ofNat rr :: acc)
    | _ => none
  | n + 1, c :: rest, acc => if c.toNat < 0x20 then none else scanString n rest (c :: acc)

def takeDigits : List Char → List Char × List Char
  | [] => ([], [])
  | c :: cs =>
    if strings.isDigit c then (c :: (takeDigits cs).1, (takeDigits cs).2) else ([], c :: cs)

/-- The exponent of a number literal, if there is one. -/
def scanExp (acc cs : List Char) : Option (List Char × List Char) :=
  match cs with
  | e :: rest =>
    if e == 'e' || e == 'E' then
      let signed : List Char × List Char :=
        match rest with
        | '+' :: r => (['+'], r)
        | '-' :: r => (['-'], r)
        | r => ([], r)
      match takeDigits signed.2 with
      | ([], _) => none
      | (ds, rest2) => some (acc ++ [e] ++ signed.1 ++ ds, rest2)
    else some (acc, cs)
  | [] => some (acc, cs)

/-- The fraction of a number literal, if there is one, and the exponent. -/
def scanFrac (acc cs : List Char) : Option (List Char × List Char) :=
  match cs with
  | '.' :: rest =>
    match takeDigits rest with
    | ([], _) => none
    | (ds, rest1) => scanExp (acc ++ ['.'] ++ ds) rest1
  | _ => scanExp acc cs

/-- The integer part of a number literal (no leading zero) and what follows. -/
def scanInt (acc cs : List Char) : Option (List Char × List Char) :=
  match cs with
  | '0' :: rest => scanFrac (acc ++ ['0']) rest
  | c :: rest =>
    if strings.isDigit c then scanFrac (acc ++ [c] ++ (takeDigits rest).1) (takeDigits rest).2
    else none
  | [] => none

def scanNumber : List Char → Option (String × List Char)
  | '-' :: rest => (scanInt ['-'] rest).map fun p => (String.mk p.1, p.2)
  | cs => (scanInt [] cs).map fun p => (String.mk p.1, p.2)

mutual
/-- One JSON value and the text after it; the first argument bounds the
recursion. -/
def parseValue : Nat → List Char → Option (Json × List Char)
  | 0, _ => none
  | n + 1, cs =>
    match skipSpace cs with
    | '\x7b' :: rest =>
      match skipSpace rest with
      | '\x7d' :: rest1 => some (Json.obj [], rest1)
      | rest1 => parseMembers n rest1 []
    | '[' :: rest =>
      match skipSpace rest with
      | ']' :: rest1 => some (Json.arr [], rest1)
      | rest1 => parseElements n rest1 []
    | '"' :: rest => (scanString (rest.length + 1) rest []).map fun p => (Json.str p.1, p.2)
    | 't' :: 'r' :: 'u' :: 'e' :: rest => some (Json.bool true, rest)
    | 'f' :: 'a' :: 'l' :: 's' :: 'e' :: rest => some (Json.bool false, rest)
    | 'n' :: 'u' :: 'l' :: 'l' :: rest => some (Json.null, rest)
    | rest => (scanNumber rest).map fun p => (Json.num p.1, p.2)
/-- The elements of an array after the first bracket, up to the closing one. -/
def parseElements : Nat → List Char → List Json → Option (Json × List Char)
  | 0, _, _ => none
  | n + 1, cs, acc =>
    match parseValue n cs with
    | none => none
    | some (v, rest) =>
      match skipSpace rest with
      | ',' :: rest1 => parseElements n rest1 (v :: acc)
      | ']' :: rest1 => some (Json.arr (v :: acc).reverse, rest1)
      | _ => none
/-- The members of an object after the opening brace, up to the closing one. -/
def parseMembers : Nat → List Char → List (String × Json) → Option (Json × List Char)
  | 0, _, _ => none
  | n + 1, cs, acc =>
    match skipSpace cs with
    | '"' :: rest =>
      match scanString (rest.length + 1) rest [] with
      | none => none
      | some (k, rest1) =>
        match skipSpace rest1 with
        | ':' :: rest2 =>
          match parseValue n rest2 with
          | none => none
          | some (v, rest3) =>
            match skipSpace rest3 with
            | ',' :: rest4 => parseMembers n rest4 ((k, v) :: acc)
            | '\x7d' :: rest4 => some (Json.obj ((k, v) :: acc).reverse, rest4)
            | _ => none
        | _ => none
    | _ => none
end

/-- The syntax check that `json.Unmarshal` makes before it decodes anything
(Go `checkValid`), returning the value read: `none` is a `SyntaxError`. Each
step of the recursion consumes input, so twice the length bounds it. -/
def parse (data : String) : Option Json :=
  match parseValue (2 * data.length + 2) data.data with
  | none => none
  | some (v, rest) => if (skipSpace rest).isEmpty then some v else none

/-- Case folding of one character as `encoding/json` applies it to the keys of
an object: ASCII letters to upper case, and the two characters outside ASCII
whose fold orbit holds an ASCII letter. -/
def foldChar (c : Char) : Char :=
  if c = Char.ofNat 0x17F then 'S'
  else if c = Char.ofNat 0x212A then 'K'
  else strings.upperChar c

/-- Whether an object key addresses the field of the given (ASCII) name: an
exact match or a match up to case folding. -/
def keyMatches (name key : String) : Bool := key.data.map foldChar == name.data.map foldChar

end json

/-! ## Decoding an error body -/

/-- The first attempt of `Error.UnmarshalJSON`: `json.Unmarshal` into the
fields of `Error` under their tags. Each string member is stored as it is met;
the Boolean tells whether the library reported an error (a value of the wrong
type somewhere), which does not stop the members after it. -/
def Error.decodeFields : List (String × Json) → Error → Error × Bool
  | [], e => (e, false)
  | (k, v) :: rest, e =>
    let known := json.keyMatches "resource" k || json.keyMatches "field" k ||
      json.keyMatches "code" k || json.keyMatches "message" k
    match v with
    | Json.str s =>
      let e1 :=
        if json.keyMatches "resource" k then { e with Resource := s }
        else if json.keyMatches "field" k then { e with Field := s }
        else if json.keyMatches "code" k then { e with Code := s }
        else if json.keyMatches "message" k then { e with Message := s }
        else e
      Error.decodeFields rest e1
    | Json.null => Error.decodeFields rest e
    | _ => ((Error.decodeFields rest e).1, known || (Error.decodeFields rest e).2)

/-- Source `Error.UnmarshalJSON`, on the value that the bytes denote: decode
into the fields, and if that reports an error decode into `Message` alone. The
Boolean is false when the method returns an error. -/
def Error.UnmarshalJSON (data : Json) (e : Error) : Error × Bool :=
  let first : Error × Bool :=
    match data with
    | Json.obj kvs => Error.decodeFields kvs e
    | Json.null => (e, false)
    | _ => (e, true)
  if first.2 then
    match data with
    | Json.str s => ({ first.1 with Message := s }, true)
    | Json.null => (first.1, true)
    | _ => (first.1, false)
  else (first.1, true)

/-- Where the `Response` pointer of the `ErrorResponse` being decoded points:
to the response given to `CheckResponse`, nowhere, or to a response that the
decoder allocated. -/
inductive Ref where
  | arg
  | nil
  | fresh (x : http.Response)
deriving DecidableEq, Repr

/-- The `ErrorResponse` that `json.Unmarshal` is writing into, together with
the response that `CheckResponse` was given, which the decoder reaches through
the `Response` pointer. `spare` holds the elements of the array behind `Errors`
that lie beyond its length. -/
structure Unmarshaling where
  r : http.Response
  Response : Ref := Ref.arg
  Message : service := {}
  Errors : List Error := []
  spare : List Error := []
deriving DecidableEq, Repr

/-- The response that the `Response` pointer refers to, if any. -/
def Unmarshaling.pointee (st : Unmarshaling) : Option http.Response :=
  match st.Response with
  | Ref.arg => some st.r
  | Ref.nil => none
  | Ref.fresh x => some x

/-- Writing through the `Response` pointer: the response it refers to becomes
`x`; a nil pointer is set to a new response `x`. -/
def Unmarshaling.store (st : Unmarshaling) (x : http.Response) : Unmarshaling :=
  match st.Response with
  | Ref.arg => { st with r := x }
  | Ref.nil => { st with Response := Ref.fresh x }
  | Ref.fresh _ => { st with Response := Ref.fresh x }

def Json.isNull : Json → Bool
  | Json.null => true
  | _ => false

namespace json

/-- Decoding the elements of a JSON array into the slice `Errors`: element `i`
is decoded by `Error.UnmarshalJSON` into what the backing array holds at `i`
(`backing`), a zero `Error` beyond it. The result is the slice, the rest of the
backing array, and whether an element's unmarshaler failed; the slice then
keeps its old length (`oldLen`) if that is longer. -/
def decodeElements : List Json → List Error → List Error → Nat → List Error × List Error × Bool
  | [], done, backing, _ => (done.reverse, backing, false)
  | x :: xs, done, backing, oldLen =>
    let res := Error.UnmarshalJSON x (backing.headD {})
    if res.2 then decodeElements xs (res.1 :: done) backing.tail oldLen
    else
      let all := done.reverse ++ res.1 :: backing.tail
      (all.take (max (done.length + 1) oldLen), all.drop (max (done.length + 1) oldLen), true)

/-- A member addressed to the field `Response`, a `*http.Response`. The
documentation of `encoding/json`: "To unmarshal JSON into a pointer, Unmarshal
first handles the case of the JSON being the JSON literal null. In that case,
Unmarshal sets the pointer to nil. Otherwise, Unmarshal unmarshals the JSON into
the value pointed at by the pointer. If the pointer is nil, Unmarshal allocates
a new value for it to point to." -/
def decodeResponseMember (std : Stdlib) (v : Json) (st : Unmarshaling) : Unmarshaling × Bool :=
  if v.isNull then ({ st with Response := Ref.nil }, false)
  else ((st.store (std.decodeResponse v st.pointee).1), (std.decodeResponse v st.pointee).2)

/-- A member addressed to the field `Errors`, an `[]Error`: `null` and the
empty array replace the slice, an array is decoded element by element, any
other value is a type mismatch that stores nothing. -/
def decodeErrorsMember (v : Json) (st : Unmarshaling) : Unmarshaling × Bool :=
  match v with
  | Json.null => ({ st with Errors := [], spare := [] }, false)
  | Json.arr [] => ({ st with Errors := [], spare := [] }, false)
  | Json.arr (x :: xs) =>
    let res := decodeElements (x :: xs) [] (st.Errors ++ st.spare) st.Errors.length
    ({ st with Errors := res.1, spare := res.2.1 }, res.2.2)
  | Json.bool _ => (st, false)
  | Json.num _ => (st, false)
  | Json.str _ => (st, false)
  | Json.obj _ => (st, false)

/-- One member of the object that is decoded into an `ErrorResponse`. The
struct has three exported fields and no field tags, so a member is matched
against the field names `Response`, `Message` and `Errors` (the documentation
of `encoding/json`: "Unmarshal matches incoming object keys to the keys used by
Marshal (either the struct field name or its tag), preferring an exact match
but also accepting a case-insensitive match"); `Message` is a struct without
exported fields, in which no value stores anything. The Boolean tells whether
decoding ends here with the error of a nested unmarshaler. -/
def decodeMember (std : Stdlib) (k : String) (v : Json) (st : Unmarshaling) :
    Unmarshaling × Bool :=
  if keyMatches "Response" k then decodeResponseMember std v st
  else if keyMatches "Message" k then (st, false)
  else if keyMatches "Errors" k then decodeErrorsMember v st
  else (st, false)

/-- The members of an object, in the order of the document, up to the first
that ends the decoding. -/
def decodeMembers (std : Stdlib) : List (String × Json) → Unmarshaling → Unmarshaling
  | [], st => st
  | (k, v) :: rest, st =>
    if (decodeMember std k v st).2 then (decodeMember std k v st).1
    else decodeMembers std rest (decodeMember std k v st).1

/-- Whether the data is valid JSON whose value is an object. -/
def isObject (data : String) : Bool :=
  match parse data with
  | some (Json.obj _) => true
  | _ => false

/-- Whether the data is a JSON object with a member whose key addresses the
field `Response`. -/
def hasResponseMember (data : String) : Bool :=
  match parse data with
  | some (Json.obj kvs) => kvs.any fun p => keyMatches "Response" p.1
  | _ => false

/-- Go `json.Unmarshal(data, errorResponse)` for an `*ErrorResponse`, as
`CheckResponse` calls it: the returned error is dropped there, so only the
effect on the target is kept. Data that is not valid JSON, and a value that is
not an object, leave the target as it is. -/
def Unmarshal (std : Stdlib) (data : String) (st : Unmarshaling) : Unmarshaling :=
  match parse data with
  | some (Json.obj kvs) => decodeMembers std kvs st
  | _ => st

end json

/-- The `ErrorResponse` that the decoding leaves, given the final state of the
response it may point to. -/
def Unmarshaling.result (st : Unmarshaling) (r : http.Response) : ErrorResponse :=
  { Response :=
      match st.Response with
      | Ref.arg => some r
      | Ref.nil => none
      | Ref.fresh x => some x
    Message := st.Message
    Errors := st.Errors }

/-! ## Classifying a response -/

/-- Source `CheckResponse`. The result is the response as the call leaves it
(its body replaced by a buffer over the bytes read) and the error returned.
`ioutil.ReadAll` never returns a nil slice, so of the guard before
`json.Unmarshal` the test of the read error is what remains. -/
def CheckResponse (std : Stdlib) (r : http.Response) : http.Response × Option GoError :=
  if 200 ≤ r.StatusCode ∧ r.StatusCode ≤ 299 then (r, none)
  else
    let errorResponse : Unmarshaling := { r := r }
    let read := ioutil.ReadAll r.Body
    let decoded := if read.2 = none then json.Unmarshal std read.1 errorResponse else errorResponse
    let r1 : http.Response := { decoded.r with Body := ioutil.NopCloser read.1 }
    (r1, some (GoError.errorResponse (decoded.result r1)))

/-- Source `parseBoolResponse`. The type assertion succeeds for every
`*ErrorResponse`, and the status is then read through its `Response` pointer. -/
def parseBoolResponse (err : Option GoError) : Outcome (Bool × Option GoError) :=
  match err with
  | none => Outcome.returns (true, none)
  | some (GoError.errorResponse e) =>
    match e.Response with
    | none => Outcome.panics
    | some resp =>
      if resp.StatusCode = 404 then Outcome.returns (false, none)
      else Outcome.returns (false, some (GoError.errorResponse e))
  | some e => Outcome.returns (false, some e)

/-! ## Rendering errors -/

namespace fmt

/-- Go `%d` of an `int`. -/
def int (n : Int) : String := toString n

/-- Hexadecimal digits of a number, as `%x` prints them. -/
def hex (n : Nat) : String := String.mk (Nat.toDigits 16 n)

/-- Go `%v` of a `service`: the struct in braces, its pointer field as `<nil>`
or as an address. -/
def service (s : service) : String :=
  "\x7b" ++ (match s.client with
    | none => "<nil>"
    | some a => "0x" ++ hex a) ++ "\x7d"

/-- Go `%+v` of an `Error` inside a slice: the value has no `Error` method (the
method has a pointer receiver), so it is printed as a struct with field names. -/
def error (e : Error) : String :=
  "\x7bResource:" ++ e.Resource ++ " Field:" ++ e.Field ++ " Code:" ++ e.Code ++
    " Message:" ++ e.Message ++ "\x7d"

/-- Go `%+v` of an `[]Error`. -/
def errors (es : List Error) : String := "[" ++ " ".intercalate (es.map error) ++ "]"

end fmt

/-- Source `ErrorResponse.Error`. -/
def ErrorResponse.Error (r : ErrorResponse) : Outcome String :=
  match r.Response with
  | none => Outcome.panics
  | some resp =>
    match resp.Request with
    | none => Outcome.panics
    | some req =>
      Outcome.returns (req.Method ++ ": " ++ fmt.int resp.StatusCode ++ " " ++
        fmt.service r.Message ++ " " ++ fmt.errors r.Errors)

/-- Source `Error.Error`. -/
def Error.Error (e : Error) : String :=
  e.Code ++ " error caused by " ++ e.Field ++ " field on " ++ e.Resource ++ " resource"

/-! ## The client -/

/-- Source constant `defaultBaseURL`. -/
def defaultBaseURL : String := "http://localhost:8080"

/-- Source constant `userAgent`. -/
def userAgent : String := "go-animal-rescue"

/-- Source `Client`. The service fields only hold a pointer back to the client
and are left out. -/
structure Client where
  client : http.Client
  BaseURL : Option url.URL
  UserAgent : String

/-- Source `NewClient`. -/
def NewClient (std : Stdlib) (httpClient : Option http.Client) : Client :=
  { client := httpClient.getD std.zeroClient
    BaseURL := url.Parse defaultBaseURL
    UserAgent := userAgent }

/-- The `*url.Error` that `url.Parse` returns for text it rejects; the reason
inside it is not modelled. -/
def url.parseError (rawURL : String) : GoError := GoError.urlError "parse" rawURL "invalid URL"

/-- Go `removeEmptyPort`: a host ending in a colon loses it. -/
def http.removeEmptyPort (host : String) : String :=
  if host.data.getLast? = some ':' then String.mk host.data.dropLast else host

/-- Go `http.NewRequest`: the request has the method (`GET` for an empty one),
the parsed URL, an empty header and the body it is given. -/
def http.NewRequest (method urlStr : String) (body : Option String) :
    Except GoError http.Request :=
  let method := if method = "" then "GET" else method
  if !http.validMethod method then
    Except.error (GoError.errorf "net/http: invalid method %q" [method])
  else
    match url.Parse urlStr with
    | none => Except.error (url.parseError urlStr)
    | some u =>
      Except.ok
        { Method := method
          URL := { u with Host := http.removeEmptyPort u.Host }
          Header := []
          Body := body
          ctx := context.Background }

/-- The `body` argument of `NewRequest` when it is not nil: a Go value, by what
`json.Encoder.Encode` (HTML escaping off) makes of it, the JSON text with its
final newline or an error. -/
abbrev Payload := Except GoError String

/-- Source `Client.NewRequest`. -/
def Client.NewRequest (std : Stdlib) (c : Client) (method urlStr : String)
    (body : Option Payload) : Outcome (Except GoError http.Request) :=
  match c.BaseURL with
  | none => Outcome.panics
  | some base =>
    if !strings.HasSuffix base.Path "/" then
      Outcome.returns (Except.error
        (GoError.errorf "BaseURL must have a trailing slash, but %q does not" [std.URLString base]))
    else
      match url.Parse urlStr with
      | none => Outcome.returns (Except.error (url.parseError urlStr))
      | some ref =>
        let u := std.ResolveReference base ref
        let encoded : Except GoError (Option String) :=
          match body with
          | none => Except.ok none
          | some (Except.ok text) => Except.ok (some text)
          | some (Except.error err) => Except.error err
        match encoded with
        | Except.error err => Outcome.returns (Except.error err)
        | Except.ok buf =>
          match http.NewRequest method (std.URLString u) buf with
          | Except.error err => Outcome.returns (Except.error err)
          | Except.ok req =>
            let h1 := if body.isSome then req.Header.Set "Content-Type" "application/json"
              else req.Header
            let h2 := h1.Set "Accept" "application/json"
            let h3 := if c.UserAgent ≠ "" then h2.Set "User-Agent" c.UserAgent else h2
            Outcome.returns (Except.ok { req with Header := h3 })

/-- Source `Response`: a wrapper around the `http.Response`. -/
structure Response where
  Response : http.Response
deriving DecidableEq, Repr

/-- Source `newResponse`. -/
def newResponse (r : http.Response) : Response := { Response := r }

/-- Source `withContext`. -/
def withContext (ctx : context.Context) (req : http.Request) : http.Request :=
  { req with ctx := ctx }

/-- The target `v` of `Do` when it is not nil: an `io.Writer`, by the bytes
written to it so far, or any other value. -/
inductive Target (α : Type) where
  | writer (written : String)
  | value (x : α)
deriving DecidableEq, Repr

/-- What decoding a response body into a value of the caller's type does when
the body holds something to decode: the value afterwards and the error. -/
abbrev json.Decoder (α : Type) := http.Body → α → α × Option GoError

/-- Go `json.NewDecoder(body).Decode(v)`: a body that ends before any value
starts gives `io.EOF` and leaves the target alone; any other body is decoded as
the type of the target has it. -/
def json.Decode {α : Type} (dec : json.Decoder α) (body : http.Body) (x : α) :
    α × Option GoError :=
  match body with
  | http.Body.stream data none =>
    if data.data.all json.isSpace then (x, some GoError.EOF) else dec body x
  | _ => dec body x

/-- Go `io.Copy(w, body)`: the bytes read from the body are appended to the
writer; the error is dropped by the caller. -/
def io.Copy (written : String) (body : http.Body) : String := written ++ (ioutil.ReadAll body).1

/-- What `Do` returns, and the target as it leaves it. -/
structure DoResult (α : Type) where
  resp : Option Response
  err : Option GoError
  v : Option (Target α)
deriving DecidableEq, Repr

/-- Source `Client.Do`. On the success path the body that the response holds
has been closed when the function returns; on the failure path the response
holds the buffer that `CheckResponse` put in its place. -/
def Client.Do {α : Type} (std : Stdlib) (dec : json.Decoder α) (c : Client)
    (ctx : Option context.Context) (req : http.Request) (v : Option (Target α)) : DoResult α :=
  match ctx with
  | none => { resp := none, err := some (GoError.errorString "context must be non-nil"), v := v }
  | some ctx =>
    match c.client.Do (withContext ctx req) with
    | Except.error err =>
      if ctx.Done then { resp := none, err := ctx.Err.map GoError.other, v := v }
      else
        match err with
        | GoError.urlError op raw inner =>
          match url.Parse raw with
          | some u => { resp := none, err := some (GoError.urlError op (std.URLString u) inner), v := v }
          | none => { resp := none, err := some err, v := v }
        | _ => { resp := none, err := some err, v := v }
    | Except.ok resp =>
      match (CheckResponse std resp).2 with
      | some err => { resp := some (newResponse (CheckResponse std resp).1), err := some err, v := v }
      | none =>
        let response := newResponse { (CheckResponse std resp).1 with Body := http.Body.closed }
        match v with
        | none => { resp := some response, err := none, v := none }
        | some (Target.writer w) =>
          { resp := some response, err := none, v := some (Target.writer (io.Copy w resp.Body)) }
        | some (Target.value x) =>
          let decoded := json.Decode dec resp.Body x
          { resp := some response
            err := if decoded.2 = some GoError.EOF then none else decoded.2
            v := some (Target.value decoded.1) }

/-! ## The resource facades

`src/adoptees.go`, `src/adopters.go`, `src/adoptions.go` and
`src/pet_preferences.go`. A service is a pointer to the client and is modelled
by that client. The relative path that a method computes into its local
variable `u` is a definition of its own, named after the method. The value to
create or modify is given by its JSON encoding, as a `Payload`. A method with
three results returns the decoded value, the response and the error. -/

/-- Source `PetPreference`. -/
structure PetPreference where
  ID : Int := 0
  Breed : String := ""
  Age : String := ""
  Gender : String := ""
deriving DecidableEq, Repr

/-- Source `Adoptee`. -/
structure Adoptee where
  ID : Int := 0
  Name : String := ""
  Breed : String := ""
  Gender : String := ""
  Age : String := ""
deriving DecidableEq, Repr

/-- Source `Adopter`: every field but the last is a pointer. -/
structure Adopter where
  ID : Option Int := none
  FirstName : Option String := none
  LastName : Option String := none
  Phone : Option String := none
  Email : Option String := none
  Gender : Option String := none
  Birthdate : Option String := none
  Address : Option String := none
  Country : Option String := none
  State : Option String := none
  City : Option String := none
  ZipCode : Option String := none
  PetPreferences : List (Option PetPreference) := []
deriving DecidableEq, Repr

/-- Source `Adoption`. -/
structure Adoption where
  ID : Int := 0
  Adopter : Option Adopter := none
  Adoptee : Option Adoptee := none
  CreatedAt : String := ""
deriving DecidableEq, Repr

/-- The value that `Do` has decoded into, read back from the target. -/
def Target.decoded {α : Type} : Option (Target α) → Option α
  | some (Target.value x) => some x
  | _ => none

/-- A decoder for a call that has no target. -/
def json.noDecoder : json.Decoder Unit := fun _ x => (x, none)

/-- The result of a facade method that decodes a value: the value, the
response and the error, as the method's `if err != nil` returns them. -/
def facadeResult {α : Type} (out : DoResult α) : Option α × Option Response × Option GoError :=
  match out.err with
  | some err => (none, out.resp, some err)
  | none => (Target.decoded out.v, out.resp, none)

/-- Source `GetAdopteeByID`, the path in `u`: `fmt.Sprintf("adoptee/%v", adopteeID)`. -/
def AdopteesService.GetAdopteeByID.u (adopteeID : Int) : String := "adoptee/" ++ fmt.int adopteeID

/-- Source `AdopteesService.GetAdopteeByID`. -/
def AdopteesService.GetAdopteeByID (std : Stdlib) (dec : json.Decoder Adoptee) (s : Client)
    (ctx : Option context.Context) (adopteeID : Int) :
    Outcome (Option Adoptee × Option Response × Option GoError) :=
  match s.NewRequest std "GET" (AdopteesService.GetAdopteeByID.u adopteeID) none with
  | Outcome.panics => Outcome.panics
  | Outcome.returns (Except.error err) => Outcome.returns (none, none, some err)
  | Outcome.returns (Except.ok req) =>
    Outcome.returns (facadeResult (s.Do std dec ctx req (some (Target.value {}))))

/-- Source `EditAdopteeByID`, the path in `u`: `fmt.Sprintf("adoptee/%v", adopteeID)`. -/
def AdopteesService.EditAdopteeByID.u (adopteeID : Int) : String := "adoptee/" ++ fmt.int adopteeID

/-- Source `AdopteesService.EditAdopteeByID`. -/
def AdopteesService.EditAdopteeByID (std : Stdlib) (dec : json.Decoder Adoptee) (s : Client)
    (ctx : Option context.Context) (adopteeID : Int) (adoptee : Payload) :
    Outcome (Option Adoptee × Option Response × Option GoError) :=
  match s.NewRequest std "PATCH" (AdopteesService.EditAdopteeByID.u adopteeID) (some adoptee) with
  | Outcome.panics => Outcome.panics
  | Outcome.returns (Except.error err) => Outcome.returns (none, none, some err)
  | Outcome.returns (Except.ok req) =>
    Outcome.returns (facadeResult (s.Do std dec ctx req (some (Target.value {}))))

/-- Source `DeleteAdopteeByID`, the path in `u`: `fmt.Sprintf("/adoptee/%v", adopteeID)`. -/
def AdopteesService.DeleteAdopteeByID.u (adopteeID : Int) : String :=
  "/adoptee/" ++ fmt.int adopteeID

/-- Source `AdopteesService.DeleteAdopteeByID`. -/
def AdopteesService.DeleteAdopteeByID (std : Stdlib) (s : Client)
    (ctx : Option context.Context) (adopteeID : Int) : Outcome (Option Response × Option GoError) :=
  match s.NewRequest std "DELETE" (AdopteesService.DeleteAdopteeByID.u adopteeID) none with
  | Outcome.panics => Outcome.panics
  | Outcome.returns (Except.error err) => Outcome.returns (none, some err)
  | Outcome.returns (Except.ok req) =>
    Outcome.returns ((s.Do std json.noDecoder ctx req none).resp,
      (s.Do std json.noDecoder ctx req none).err)

/-- Source `GetAdopterByID`, the path in `u`: `fmt.Sprintf("adopter/%v", adopterID)`. -/
def AdoptersService.GetAdopterByID.u (adopterID : Int) : String := "adopter/" ++ fmt.int adopterID

/-- Source `AdoptersService.GetAdopterByID`. -/
def AdoptersService.GetAdopterByID (std : Stdlib) (dec : json.Decoder Adopter) (s : Client)
    (ctx : Option context.Context) (adopterID : Int) :
    Outcome (Option Adopter × Option Response × Option GoError) :=
  match s.NewRequest std "GET" (AdoptersService.GetAdopterByID.u adopterID) none with
  | Outcome.panics => Outcome.panics
  | Outcome.returns (Except.error err) => Outcome.returns (none, none, some err)
  | Outcome.returns (Except.ok req) =>
    Outcome.returns (facadeResult (s.Do std dec ctx req (some (Target.value {}))))

/-- Source `EditAdopterByID`, the path in `u`: `fmt.Sprintf("adopter/%v", adopterID)`. -/
def AdoptersService.EditAdopterByID.u (adopterID : Int) : String := "adopter/" ++ fmt.int adopterID

/-- Source `AdoptersService.EditAdopterByID`. -/
def AdoptersService.EditAdopterByID (std : Stdlib) (dec : json.Decoder Adopter) (s : Client)
    (ctx : Option context.Context) (adopterID : Int) (adopter : Payload) :
    Outcome (Option Adopter × Option Response × Option GoError) :=
  match s.NewRequest std "PATCH" (AdoptersService.EditAdopterByID.u adopterID) (some adopter) with
  | Outcome.panics => Outcome.panics
  | Outcome.returns (Except.error err) => Outcome.returns (none, none, some err)
  | Outcome.returns (Except.ok req) =>
    Outcome.returns (facadeResult (s.Do std dec ctx req (some (Target.value {}))))

/-- Source `DeleteAdopterByID`, the path in `u`: `fmt.Sprintf("/adopter/%v", adopterID)`. -/
def AdoptersService.DeleteAdopterByID.u (adopterID : Int) : String :=
  "/adopter/" ++ fmt.int adopterID

/-- Source `AdoptersService.DeleteAdopterByID`. -/
def AdoptersService.DeleteAdopterByID (std : Stdlib) (s : Client)
    (ctx : Option context.Context) (adopterID : Int) : Outcome (Option Response × Option GoError) :=
  match s.NewRequest std "DELETE" (AdoptersService.DeleteAdopterByID.u adopterID) none with
  | Outcome.panics => Outcome.panics
  | Outcome.returns (Except.error err) => Outcome.returns (none, some err)
  | Outcome.returns (Except.ok req) =>
    Outcome.returns ((s.Do std json.noDecoder ctx req none).resp,
      (s.Do std json.noDecoder ctx req none).err)

/-- Source `GetAdoptionByID`, the path in `u`: `fmt.Sprintf("adoption/%v", adoptionID)`. -/
def AdoptionsService.GetAdoptionByID.u (adoptionID : Int) : String :=
  "adoption/" ++ fmt.int adoptionID

/-- Source `AdoptionsService.GetAdoptionByID`. -/
def AdoptionsService.GetAdoptionByID (std : Stdlib) (dec : json.Decoder Adoption) (s : Client)
    (ctx : Option context.Context) (adoptionID : Int) :
    Outcome (Option Adoption × Option Response × Option GoError) :=
  match s.NewRequest std "GET" (AdoptionsService.GetAdoptionByID.u adoptionID) none with
  | Outcome.panics => Outcome.panics
  | Outcome.returns (Except.error err) => Outcome.returns (none, none, some err)
  | Outcome.returns (Except.ok req) =>
    Outcome.returns (facadeResult (s.Do std dec ctx req (some (Target.value {}))))

/-- Source `DeleteAdoptionByID`, the path in `u`: `fmt.Sprintf("/adoption/%v", adoptionID)`. -/
def AdoptionsService.DeleteAdoptionByID.u (adoptionID : Int) : String :=
  "/adoption/" ++ fmt.int adoptionID

/-- Source `AdoptionsService.DeleteAdoptionByID`. -/
def AdoptionsService.DeleteAdoptionByID (std : Stdlib) (s : Client)
    (ctx : Option context.Context) (adoptionID : Int) : Outcome (Option Response × Option GoError) :=
  match s.NewRequest std "DELETE" (AdoptionsService.DeleteAdoptionByID.u adoptionID) none with
  | Outcome.panics => Outcome.panics
  | Outcome.returns (Except.error err) => Outcome.returns (none, some err)
  | Outcome.returns (Except.ok req) =>
    Outcome.returns ((s.Do std json.noDecoder ctx req none).resp,
      (s.Do std json.noDecoder ctx req none).err)

/-- Source `GetPetPreferenceByID`, the path in `u`: `fmt.Sprintf("petpref/%v", ppID)`. -/
def PetPreferencesService.GetPetPreferenceByID.u (ppID : Int) : String :=
  "petpref/" ++ fmt.int ppID

/-- Source `PetPreferencesService.GetPetPreferenceByID`. -/
def PetPreferencesService.GetPetPreferenceByID (std : Stdlib) (dec : json.Decoder PetPreference)
    (s : Client) (ctx : Option context.Context) (ppID : Int) :
    Outcome (Option PetPreference × Option Response × Option GoError) :=
  match s.NewRequest std "GET" (PetPreferencesService.GetPetPreferenceByID.u ppID) none with
  | Outcome.panics => Outcome.panics
  | Outcome.returns (Except.error err) => Outcome.returns (none, none, some err)
  | Outcome.returns (Except.ok req) =>
    Outcome.returns (facadeResult (s.Do std dec ctx req (some (Target.value {}))))

/-- Source `EditPetPreferenceByID`, the path in `u`: `fmt.Sprintf("petpref/%v", ppID)`. -/
def PetPreferencesService.EditPetPreferenceByID.u (ppID : Int) : String :=
  "petpref/" ++ fmt.int ppID

/-- Source `PetPreferencesService.EditPetPreferenceByID`. -/
def PetPreferencesService.EditPetPreferenceByID (std : Stdlib) (dec : json.Decoder PetPreference)
    (s : Client) (ctx : Option context.Context) (ppID : Int) (pp : Payload) :
    Outcome (Option PetPreference × Option Response × Option GoError) :=
  match s.NewRequest std "PATCH" (PetPreferencesService.EditPetPreferenceByID.u ppID) (some pp) with
  | Outcome.panics => Outcome.panics
  | Outcome.returns (Except.error err) => Outcome.returns (none, none, some err)
  | Outcome.returns (Except.ok req) =>
    Outcome.returns (facadeResult (s.Do std dec ctx req (some (Target.value {}))))

/-- Source `DeletePetPreferenceByID`, the path in `u`: `fmt.Sprintf("petpref/%v", ppID)`. -/
def PetPreferencesService.DeletePetPreferenceByID.u (ppID : Int) : String :=
  "petpref/" ++ fmt.int ppID

/-- Source `PetPreferencesService.DeletePetPreferenceByID`. -/
def PetPreferencesService.DeletePetPreferenceByID (std : Stdlib) (s : Client)
    (ctx : Option context.Context) (ppID : Int) : Outcome (Option Response × Option GoError) :=
  match s.NewRequest std "DELETE" (PetPreferencesService.DeletePetPreferenceByID.u ppID) none with
  | Outcome.panics => Outcome.panics
  | Outcome.returns (Except.error err) => Outcome.returns (none, some err)
  | Outcome.returns (Except.ok req) =>
    Outcome.returns ((s.Do std json.noDecoder ctx req none).resp,
      (s.Do std json.noDecoder ctx req none).err)

/-! ## Sample values -/

/-- A stand-in for the open library operations, exact on URLs that consist of
a scheme, a host and a path without escapes, and on references that are a
path without dot segments: rendering joins the parts, resolution takes a
reference path that starts with a slash as it is and otherwise puts it in the
place of the last segment of the base path, and decoding into a response leaves
it as it is. -/
def Stdlib.plain : Stdlib where
  ResolveReference base ref :=
    { base with
      Path :=
        if ref.Path.data.head? = some '/' then ref.Path
        else String.mk (((strings.splitLast '/' base.Path.data).map
          (fun p => p.1 ++ ['/'])).getD [] ++ ref.Path.data)
      RawQuery := ref.RawQuery
      Fragment := ref.Fragment }
  URLString u := u.Scheme ++ "://" ++ u.Host ++ u.Path
  decodeResponse _ cur := (cur.getD { StatusCode := 0, Body := http.Body.closed, Request := none }, false)
  zeroClient := { Do := fun _ => Except.error (GoError.urlError "Get" "" "connection refused") }

def sampleRequest : http.Request := { Method := "GET", URL := { Scheme := "http", Host := "localhost:8080", Path := "/adoptee/5" } }

def sampleResponse (status : Int) (body : String) : http.Response :=
  { StatusCode := status, Body := http.Body.stream body none, Request := some sampleRequest }

/-- A transport that answers every request with the same response. -/
def fixedTransport (resp : http.Response) : http.Client := { Do := fun _ => Except.ok resp }

/-- A client whose base URL has a path without a trailing slash. -/
def slashlessClient : Client :=
  { client := Stdlib.plain.zeroClient
    BaseURL := some { Scheme := "https", Host := "rescue.example.org", Path := "/api/v1" }
    UserAgent := userAgent }

/-- A client whose base URL ends in a slash, with the given user agent, over a
transport that answers with the given response. -/
def slashClient (agent : String) (resp : http.Response) : Client :=
  { client := fixedTransport resp
    BaseURL := some { Scheme := "http", Host := "localhost:8080", Path := "/" }
    UserAgent := agent }

/-- The request that `NewRequest` builds for `POST adoptees` with a body, on
the client with a trailing slash and the default user agent. -/
def postAdoptees : http.Request :=
  { Method := "POST"
    URL := { Scheme := "http", Host := "localhost:8080", Path := "/adoptees" }
    Header := [("User-Agent", ["go-animal-rescue"]), ("Accept", ["application/json"]),
      ("Content-Type", ["application/json"])]
    Body := some "\x7b\"name\":\"Rex\",\"breed\":\"Lab\"\x7d\n"
    ctx := context.Background }

/-- The request that `NewRequest` builds for `GET adoptees` without a body, on
the client with a trailing slash and an empty user agent. -/
def getAdoptees : http.Request :=
  { Method := "GET"
    URL := { Scheme := "http", Host := "localhost:8080", Path := "/adoptees" }
    Header := [("Accept", ["application/json"])]
    Body := none
    ctx := context.Background }

/-- A transport that fails every request with the same error. -/
def failingTransport (err : GoError) : http.Client := { Do := fun _ => Except.error err }

/-- A transport that answers every request with status 204, an empty body and
the request itself in the field `Request`, as `http.Client` does. -/
def echoTransport : http.Client :=
  { Do := fun req =>
      Except.ok { StatusCode := 204, Body := http.Body.stream "" none, Request := some req } }

/-- A client whose base URL has the path `/api/`, over the given transport. -/
def apiClient (transport : http.Client) : Client :=
  { client := transport
    BaseURL := some { Scheme := "http", Host := "localhost:8080", Path := "/api/" }
    UserAgent := userAgent }

/-- The path of the URL of the request that a facade method sent, read from the
response it returns. -/
def sentPath (resp : Option Response) : Option String :=
  match resp with
  | some r => r.Response.Request.map fun req => req.URL.Path
  | none => none

/-- The request that reaches the transport from a facade method without a
body on `apiClient`, under `Stdlib.plain`, for the given method and URL path. -/
def sentRequest (method path : String) : http.Request :=
  { Method := method
    URL := { Scheme := "http", Host := "localhost:8080", Path := path }
    Header := [("User-Agent", ["go-animal-rescue"]), ("Accept", ["application/json"])]
    Body := none
    ctx := context.Background }

/-- The response wrapper that a facade method returns over `echoTransport` for
the request it sent: the body has been closed. -/
def echoed (req : http.Request) : Response :=
  newResponse { StatusCode := 204, Body := http.Body.closed, Request := some req }

/-- A validation error body that also carries a member `response` set to
`null`. -/
def validationBody : String :=
  "\x7b\"message\":\"Validation Failed\",\"errors\":[\x7b\"resource\":\"Adoptee\"," ++
    "\"field\":\"name\",\"code\":\"missing_field\"\x7d],\"response\":null\x7d"

/-! ## Theorems -/

/-! ### Classification of responses -/

theorem CheckResponse_of_success (std : Stdlib) (r : http.Response)
    (h : 200 ≤ r.StatusCode ∧ r.StatusCode ≤ 299) : CheckResponse std r = (r, none) := by
  simp [CheckResponse, h]

theorem CheckResponse_of_failure (std : Stdlib) (r : http.Response)
    (h : ¬ (200 ≤ r.StatusCode ∧ r.StatusCode ≤ 299)) :
    ∃ e, (CheckResponse std r).2 = some (GoError.errorResponse e) := by
  simp only [CheckResponse, if_neg h]
  exact ⟨_, rfl⟩

/-- C1 (the code at the failing input). A response with status 500 whose body is
the JSON object with the one member `Response` set to `null`: the
`ErrorResponse` that `CheckResponse` returns has a nil `Response` field, not the
response it was given, because the decoder of the body stores into the exported,
untagged field `Response`. -/
theorem CheckResponse_body_clears_Response (std : Stdlib) :
    (CheckResponse std (sampleResponse 500 "\x7b\"Response\":null\x7d")).2 =
      some (GoError.errorResponse { Response := none, Message := {}, Errors := [] }) := by
  rfl

/-- C2 (the code at the failing input). A response with status 404 whose body is
the JSON object with the one member `Response` set to `null`: `parseBoolResponse`
applied to the error that `CheckResponse` returns dereferences the nil
`Response` pointer and panics, where `(false, nil)` is expected. -/
theorem parseBoolResponse_panics_on_cleared_Response (std : Stdlib) :
    parseBoolResponse (CheckResponse std (sampleResponse 404 "\x7b\"Response\":null\x7d")).2 =
      Outcome.panics := by
  rfl

/-! ### Building requests -/

/-- C3. A client whose base URL has a path that does not end in a slash: every
call of `NewRequest` returns an error and no request, whatever the method, the
relative path and the body, and whatever the library would make of them: the
check comes before the path is parsed and before the body is encoded. -/
theorem NewRequest_fails_without_trailing_slash (std : Stdlib) (c : Client) (base : url.URL)
    (method urlStr : String) (body : Option Payload)
    (hbase : c.BaseURL = some base) (hslash : strings.HasSuffix base.Path "/" = false) :
    c.NewRequest std method urlStr body =
      Outcome.returns (Except.error
        (GoError.errorf "BaseURL must have a trailing slash, but %q does not"
          [std.URLString base])) := by
  simp [Client.NewRequest, hbase, hslash]

theorem NewRequest_fails_without_trailing_slash_witness :
    slashlessClient.BaseURL =
        some { Scheme := "https", Host := "rescue.example.org", Path := "/api/v1" } ∧
      strings.HasSuffix "/api/v1" "/" = false ∧
      slashlessClient.NewRequest Stdlib.plain "DELETE" "adoptee/5"
          (some (Except.error (GoError.other "json: unsupported type"))) =
        Outcome.returns (Except.error
          (GoError.errorf "BaseURL must have a trailing slash, but %q does not"
            ["https://rescue.example.org/api/v1"])) :=
  ⟨rfl, by decide,
    NewRequest_fails_without_trailing_slash Stdlib.plain slashlessClient
      { Scheme := "https", Host := "rescue.example.org", Path := "/api/v1" } "DELETE" "adoptee/5"
      (some (Except.error (GoError.other "json: unsupported type"))) rfl (by decide)⟩

/-- C4 (the code at the failing input). The client that `NewClient` returns has
the base URL parsed from `defaultBaseURL`, whose path is empty; `NewRequest` on
it fails the trailing-slash check for every method, path and body. -/
theorem NewClient_fails_trailing_slash_check (std : Stdlib) (httpClient : Option http.Client)
    (method urlStr : String) (body : Option Payload) :
    (NewClient std httpClient).BaseURL =
        some { Scheme := "http", Host := "localhost:8080", Path := "" } ∧
      (NewClient std httpClient).NewRequest std method urlStr body =
        Outcome.returns (Except.error
          (GoError.errorf "BaseURL must have a trailing slash, but %q does not"
            [std.URLString { Scheme := "http", Host := "localhost:8080", Path := "" }])) := by
  have hparse : url.Parse defaultBaseURL =
      some { Scheme := "http", Host := "localhost:8080", Path := "" } := by decide
  refine ⟨hparse, ?_⟩
  simp only [Client.NewRequest, NewClient, hparse]
  rfl

/-! ### Headers of a built request -/

theorem Header.lookup_filter_ne (h : http.Header) (k k1 : String) (hne : k1 ≠ k) :
    (h.filter fun p => p.1 ≠ k).lookup k1 = h.lookup k1 := by
  induction h with
  | nil => rfl
  | cons p t ih =>
    obtain ⟨a, b⟩ := p
    by_cases hak : a = k
    · subst hak
      have hb : (k1 == a) = false := by simpa using hne
      simpa [List.filter, List.lookup, hb] using ih
    · by_cases hk1 : k1 = a
      · subst hk1
        simp [List.filter, List.lookup, hak]
      · have hb : (k1 == a) = false := by simpa using hk1
        simpa [List.filter, List.lookup, hak, hb] using ih

theorem Header.Values_Set_same (h : http.Header) (k v : String) :
    (h.Set k v).Values k = some [v] := by
  simp [http.Header.Set, http.Header.Values, List.lookup]

theorem Header.Values_Set_other (h : http.Header) (k v k1 : String)
    (hne : http.CanonicalHeaderKey k1 ≠ http.CanonicalHeaderKey k) :
    (h.Set k v).Values k1 = h.Values k1 := by
  have hb : (http.CanonicalHeaderKey k1 == http.CanonicalHeaderKey k) = false := by
    simpa using hne
  simp only [http.Header.Set, http.Header.Values, List.lookup, hb]
  exact Header.lookup_filter_ne h _ _ hne

theorem http_NewRequest_empty_Header (method urlStr : String) (body : Option String) (req : http.Request)
    (h : http.NewRequest method urlStr body = Except.ok req) : req.Header = [] := by
  unfold http.NewRequest at h
  simp only at h
  cases hv : http.validMethod (if method = "" then "GET" else method) <;>
    cases hu : url.Parse urlStr <;> simp only [hv, hu] at h
  all_goals cases h
  rfl

/-- The headers of a request that `NewRequest` returns: the three `Set` calls
of the source applied to an empty header. -/
theorem NewRequest_Header (std : Stdlib) (c : Client) (method urlStr : String)
    (body : Option Payload) (req : http.Request)
    (h : c.NewRequest std method urlStr body = Outcome.returns (Except.ok req)) :
    req.Header =
      (fun (h2 : http.Header) => if c.UserAgent ≠ "" then h2.Set "User-Agent" c.UserAgent else h2)
        (http.Header.Set
          (if body.isSome then http.Header.Set [] "Content-Type" "application/json" else [])
          "Accept" "application/json") := by
  unfold Client.NewRequest at h
  split at h
  · cases h
  · split at h
    · cases h
    · split at h
      · cases h
      · simp only at h
        split at h
        · cases h
        · split at h
          · cases h
          · rename_i req0 hreq0
            have h0 := http_NewRequest_empty_Header _ _ _ _ hreq0
            cases h
            simp only [h0]

/-- C5. Every request that `NewRequest` returns has the header `Accept` set to
`application/json`; its header `Content-Type` is set exactly when the body
argument is not nil, and then to `application/json`. -/
theorem NewRequest_Accept_ContentType (std : Stdlib) (c : Client) (method urlStr : String)
    (body : Option Payload) (req : http.Request)
    (h : c.NewRequest std method urlStr body = Outcome.returns (Except.ok req)) :
    req.Header.Values "Accept" = some ["application/json"] ∧
      req.Header.Get "Accept" = "application/json" ∧
      ((req.Header.Values "Content-Type").isSome ↔ body.isSome) ∧
      (body.isSome → req.Header.Values "Content-Type" = some ["application/json"] ∧
        req.Header.Get "Content-Type" = "application/json") := by
  have hH := NewRequest_Header std c method urlStr body req h
  have hAU : http.CanonicalHeaderKey "Accept" ≠ http.CanonicalHeaderKey "User-Agent" := by decide
  have hCU : http.CanonicalHeaderKey "Content-Type" ≠ http.CanonicalHeaderKey "User-Agent" := by
    decide
  have hCA : http.CanonicalHeaderKey "Content-Type" ≠ http.CanonicalHeaderKey "Accept" := by
    decide
  have hA : req.Header.Values "Accept" = some ["application/json"] := by
    rw [hH]
    by_cases hu : c.UserAgent ≠ ""
    · simp only [if_pos hu]
      rw [Header.Values_Set_other _ _ _ _ hAU, Header.Values_Set_same]
    · simp only [if_neg hu]
      rw [Header.Values_Set_same]
  have hC : req.Header.Values "Content-Type" =
      if body.isSome then some ["application/json"] else none := by
    rw [hH]
    have inner : (http.Header.Set
        (if body.isSome then http.Header.Set [] "Content-Type" "application/json" else [])
        "Accept" "application/json").Values "Content-Type" =
        if body.isSome then some ["application/json"] else none := by
      rw [Header.Values_Set_other _ _ _ _ hCA]
      by_cases hb : body.isSome
      · simp only [hb, if_true]
        rw [Header.Values_Set_same]
      · simp only [hb]
        rfl
    by_cases hu : c.UserAgent ≠ ""
    · simp only [if_pos hu]
      rw [Header.Values_Set_other _ _ _ _ hCU, inner]
    · simp only [if_neg hu]
      exact inner
  refine ⟨hA, ?_, ?_, ?_⟩
  · simp [http.Header.Get, hA]
  · rw [hC]
    by_cases hb : body.isSome <;> simp [hb]
  · intro hb
    have hC1 : req.Header.Values "Content-Type" = some ["application/json"] := by
      rw [hC]
      simp [hb]
    exact ⟨hC1, by simp [http.Header.Get, hC1]⟩

theorem NewRequest_Accept_ContentType_witness :
    (slashClient userAgent (sampleResponse 201 "")).NewRequest Stdlib.plain "POST" "adoptees"
        (some (Except.ok "\x7b\"name\":\"Rex\",\"breed\":\"Lab\"\x7d\n")) =
        Outcome.returns (Except.ok postAdoptees) ∧
      (postAdoptees.Header.Values "Accept" = some ["application/json"] ∧
        postAdoptees.Header.Get "Accept" = "application/json" ∧
        ((postAdoptees.Header.Values "Content-Type").isSome ↔
          (some (Except.ok "\x7b\"name\":\"Rex\",\"breed\":\"Lab\"\x7d\n") : Option Payload).isSome) ∧
        ((some (Except.ok "\x7b\"name\":\"Rex\",\"breed\":\"Lab\"\x7d\n") : Option Payload).isSome →
          postAdoptees.Header.Values "Content-Type" = some ["application/json"] ∧
          postAdoptees.Header.Get "Content-Type" = "application/json")) :=
  ⟨rfl, NewRequest_Accept_ContentType Stdlib.plain (slashClient userAgent (sampleResponse 201 ""))
    "POST" "adoptees" (some (Except.ok "\x7b\"name\":\"Rex\",\"breed\":\"Lab\"\x7d\n"))
    postAdoptees rfl⟩

/-- C6 (counterexample). A client whose `UserAgent` is the empty string builds a
request without a `User-Agent` header. -/
theorem NewRequest_empty_UserAgent_unset :
    (slashClient "" (sampleResponse 200 "")).NewRequest Stdlib.plain "GET" "adoptees" none =
        Outcome.returns (Except.ok getAdoptees) ∧
      getAdoptees.Header.Values "User-Agent" = none := by
  exact ⟨rfl, by decide⟩

/-- C6 (amended). For every request that `NewRequest` returns, the header
`User-Agent` is set exactly when the client's `UserAgent` is not the empty
string, and its value is then that string. -/
theorem NewRequest_UserAgent (std : Stdlib) (c : Client) (method urlStr : String)
    (body : Option Payload) (req : http.Request)
    (h : c.NewRequest std method urlStr body = Outcome.returns (Except.ok req)) :
    (c.UserAgent ≠ "" →
        req.Header.Values "User-Agent" = some [c.UserAgent] ∧
        req.Header.Get "User-Agent" = c.UserAgent) ∧
      (c.UserAgent = "" → req.Header.Values "User-Agent" = none) := by
  have hH := NewRequest_Header std c method urlStr body req h
  have hUA : http.CanonicalHeaderKey "User-Agent" ≠ http.CanonicalHeaderKey "Accept" := by decide
  have hUC : http.CanonicalHeaderKey "User-Agent" ≠ http.CanonicalHeaderKey "Content-Type" := by
    decide
  constructor
  · intro hu
    have hV : req.Header.Values "User-Agent" = some [c.UserAgent] := by
      rw [hH]
      simp only [if_pos hu]
      rw [Header.Values_Set_same]
    exact ⟨hV, by simp [http.Header.Get, hV]⟩
  · intro hu
    rw [hH]
    have hn : ¬ c.UserAgent ≠ "" := by simp [hu]
    simp only [if_neg hn]
    rw [Header.Values_Set_other _ _ _ _ hUA]
    by_cases hb : body.isSome
    · simp only [hb, if_true]
      rw [Header.Values_Set_other _ _ _ _ hUC]
      rfl
    · simp only [hb]
      rfl

theorem NewRequest_UserAgent_witness :
    (slashClient userAgent (sampleResponse 201 "")).NewRequest Stdlib.plain "POST" "adoptees"
        (some (Except.ok "\x7b\"name\":\"Rex\",\"breed\":\"Lab\"\x7d\n")) =
        Outcome.returns (Except.ok postAdoptees) ∧
      ((slashClient userAgent (sampleResponse 201 "")).UserAgent ≠ "" →
          postAdoptees.Header.Values "User-Agent" =
            some [(slashClient userAgent (sampleResponse 201 "")).UserAgent] ∧
          postAdoptees.Header.Get "User-Agent" =
            (slashClient userAgent (sampleResponse 201 "")).UserAgent) ∧
      ((slashClient userAgent (sampleResponse 201 "")).UserAgent = "" →
          postAdoptees.Header.Values "User-Agent" = none) :=
  ⟨rfl, NewRequest_UserAgent Stdlib.plain (slashClient userAgent (sampleResponse 201 ""))
    "POST" "adoptees" (some (Except.ok "\x7b\"name\":\"Rex\",\"breed\":\"Lab\"\x7d\n"))
    postAdoptees rfl⟩

/-! ### Executing requests -/

/-- C7. `Do` with a nil context returns no response and the error
`context must be non-nil`, and leaves the target as it was; the result is the
same for every transport and every decoder, neither of which is consulted. -/
theorem Do_nil_context {α : Type} (std : Stdlib) (dec : json.Decoder α) (c : Client)
    (req : http.Request) (v : Option (Target α)) :
    c.Do std dec none req v =
        { resp := none, err := some (GoError.errorString "context must be non-nil"), v := v } ∧
      ∀ (c1 : Client) (dec1 : json.Decoder α), c1.Do std dec1 none req v = c.Do std dec none req v :=
  ⟨rfl, fun _ _ => rfl⟩

/-- C8. When the transport returns a response whose status is outside
[200,299], `Do` leaves the target as it was, returns the wrapper around that
response (whose body is then the buffer over the bytes read) and returns the
`*ErrorResponse` that `CheckResponse` gives for it; the result is the same for
every decoder of the target, which is not consulted. -/
theorem Do_failure_status {α : Type} (std : Stdlib) (dec : json.Decoder α) (c : Client)
    (ctx : context.Context) (req : http.Request) (v : Option (Target α)) (resp : http.Response)
    (htransport : c.client.Do (withContext ctx req) = Except.ok resp)
    (hstatus : ¬ (200 ≤ resp.StatusCode ∧ resp.StatusCode ≤ 299)) :
    (c.Do std dec (some ctx) req v).v = v ∧
      (c.Do std dec (some ctx) req v).resp = some (newResponse (CheckResponse std resp).1) ∧
      (CheckResponse std resp).1.Body = ioutil.NopCloser (ioutil.ReadAll resp.Body).1 ∧
      (∃ e, (CheckResponse std resp).2 = some (GoError.errorResponse e) ∧
        (c.Do std dec (some ctx) req v).err = some (GoError.errorResponse e)) ∧
      ∀ dec1 : json.Decoder α,
        c.Do std dec1 (some ctx) req v = c.Do std dec (some ctx) req v := by
  obtain ⟨e, he⟩ := CheckResponse_of_failure std resp hstatus
  have hDo : ∀ d : json.Decoder α, c.Do std d (some ctx) req v =
      { resp := some (newResponse (CheckResponse std resp).1)
        err := some (GoError.errorResponse e), v := v } := by
    intro d
    simp only [Client.Do, htransport, he]
  refine ⟨by rw [hDo], by rw [hDo], ?_, ⟨e, he, by rw [hDo]⟩, fun d => by rw [hDo, hDo]⟩
  simp only [CheckResponse, if_neg hstatus]

theorem Do_failure_status_witness :
    (slashClient userAgent (sampleResponse 404 "no such adoptee")).client.Do
        (withContext context.Background getAdoptees) =
        Except.ok (sampleResponse 404 "no such adoptee") ∧
      ¬ (200 ≤ (sampleResponse 404 "no such adoptee").StatusCode ∧
        (sampleResponse 404 "no such adoptee").StatusCode ≤ 299) ∧
      ((slashClient userAgent (sampleResponse 404 "no such adoptee")).Do Stdlib.plain
          (fun _ (x : Nat) => (x + 1, none)) (some context.Background) getAdoptees
          (some (Target.value 7))).v = some (Target.value 7) :=
  ⟨rfl, by decide,
    (Do_failure_status Stdlib.plain (fun _ (x : Nat) => (x + 1, none))
      (slashClient userAgent (sampleResponse 404 "no such adoptee")) context.Background
      getAdoptees (some (Target.value 7)) (sampleResponse 404 "no such adoptee") rfl
      (by decide)).1⟩

/-- C9. When the transport returns a response with a status in [200,299] and an
empty body, `Do` returns the wrapper around that response and a nil error for
every target that is not a writer (none, or a value to decode into), and leaves
the target as it was: the `io.EOF` of the decoder is dropped. -/
theorem Do_success_empty_body {α : Type} (std : Stdlib) (dec : json.Decoder α) (c : Client)
    (ctx : context.Context) (req : http.Request) (v : Option (Target α)) (resp : http.Response)
    (htransport : c.client.Do (withContext ctx req) = Except.ok resp)
    (hstatus : 200 ≤ resp.StatusCode ∧ resp.StatusCode ≤ 299)
    (hbody : resp.Body = http.Body.stream "" none)
    (hv : ∀ w, v ≠ some (Target.writer w)) :
    c.Do std dec (some ctx) req v =
      { resp := some (newResponse { resp with Body := http.Body.closed }), err := none, v := v } := by
  have hc := CheckResponse_of_success std resp hstatus
  cases v with
  | none => simp only [Client.Do, htransport, hc]
  | some t =>
    cases t with
    | writer w => exact absurd rfl (hv w)
    | value x =>
      have hd : json.Decode dec resp.Body x = (x, some GoError.EOF) := by
        rw [hbody]
        rfl
      simp only [Client.Do, htransport, hc, hd, if_true]

theorem Do_success_empty_body_witness :
    (slashClient userAgent (sampleResponse 204 "")).client.Do
        (withContext context.Background getAdoptees) = Except.ok (sampleResponse 204 "") ∧
      (200 ≤ (sampleResponse 204 "").StatusCode ∧ (sampleResponse 204 "").StatusCode ≤ 299) ∧
      (sampleResponse 204 "").Body = http.Body.stream "" none ∧
      (slashClient userAgent (sampleResponse 204 "")).Do Stdlib.plain
          (fun _ (x : Nat) => (x + 1, some (GoError.other "unexpected end of JSON input")))
          (some context.Background) getAdoptees (some (Target.value 7)) =
        { resp := some (newResponse { sampleResponse 204 "" with Body := http.Body.closed })
          err := none, v := some (Target.value 7) } :=
  ⟨rfl, by decide, rfl,
    Do_success_empty_body Stdlib.plain
      (fun _ (x : Nat) => (x + 1, some (GoError.other "unexpected end of JSON input")))
      (slashClient userAgent (sampleResponse 204 "")) context.Background getAdoptees
      (some (Target.value 7)) (sampleResponse 204 "") rfl (by decide) rfl
      (fun w h => by cases h)⟩

/-! ### The error for a body that is not an object -/

/-- C10 (counterexample). For the response with status 500 and the body
`plain text reason`, the `ErrorResponse` that `CheckResponse` returns has the
zero `Message` and no `Errors`, and its rendered message is the method, the
status and two empty parts: the body is not in it. -/
theorem CheckResponse_plain_text_not_in_message :
    (CheckResponse Stdlib.plain (sampleResponse 500 "plain text reason")).2 =
        some (GoError.errorResponse
          { Response := some (sampleResponse 500 "plain text reason"), Message := {}, Errors := [] }) ∧
      ErrorResponse.Error
          { Response := some (sampleResponse 500 "plain text reason"), Message := {}, Errors := [] } =
        Outcome.returns "GET: 500 \x7b<nil>\x7d []" ∧
      ¬ ("plain text reason".data <:+: "GET: 500 \x7b<nil>\x7d []".data) := by
  refine ⟨by decide, by decide, by decide⟩

/-- C10 (amended). For every response with a status outside [200,299] whose
body, read without error, is not a JSON object (text that is not JSON, such as
`plain text reason`, or a JSON value of another kind), `CheckResponse` returns
an `ErrorResponse` for that response with the zero `Message` and no `Errors`;
the body is kept only as the restored body of the response, and the rendered
message consists of the method, the status and the two empty parts. -/
theorem CheckResponse_body_not_object (std : Stdlib) (r : http.Response) (data : String)
    (hstatus : ¬ (200 ≤ r.StatusCode ∧ r.StatusCode ≤ 299))
    (hbody : r.Body = http.Body.stream data none)
    (hdata : json.isObject data = false) :
    CheckResponse std r =
        ({ r with Body := ioutil.NopCloser data },
          some (GoError.errorResponse
            { Response := some { r with Body := ioutil.NopCloser data }
              Message := {}, Errors := [] })) ∧
      ∀ rq, r.Request = some rq →
        ErrorResponse.Error
            { Response := some { r with Body := ioutil.NopCloser data }, Message := {}, Errors := [] } =
          Outcome.returns
            (rq.Method ++ ": " ++ fmt.int r.StatusCode ++ " " ++ "\x7b<nil>\x7d" ++ " " ++ "[]") := by
  have hU : ∀ st : Unmarshaling, json.Unmarshal std data st = st := by
    intro st
    unfold json.Unmarshal
    unfold json.isObject at hdata
    split
    · rename_i kvs hk
      rw [hk] at hdata
      simp at hdata
    · rfl
  constructor
  · simp only [CheckResponse, if_neg hstatus, hbody, ioutil.ReadAll, hU, if_true]
    rfl
  · intro rq hrq
    have h1 : fmt.service {} = "\x7b<nil>\x7d" := by decide
    have h2 : fmt.errors [] = "[]" := by decide
    simp only [ErrorResponse.Error, hrq, h1, h2]

theorem CheckResponse_body_not_object_witness :
    ¬ (200 ≤ (sampleResponse 500 "\"plain text reason\"").StatusCode ∧
        (sampleResponse 500 "\"plain text reason\"").StatusCode ≤ 299) ∧
      (sampleResponse 500 "\"plain text reason\"").Body =
        http.Body.stream "\"plain text reason\"" none ∧
      json.isObject "\"plain text reason\"" = false ∧
      json.isObject "plain text reason" = false ∧
      (CheckResponse Stdlib.plain (sampleResponse 500 "\"plain text reason\"")).2 =
        some (GoError.errorResponse
          { Response := some (sampleResponse 500 "\"plain text reason\""), Message := {}, Errors := [] }) :=
  ⟨by decide, rfl, by decide, by decide,
    congrArg Prod.snd (CheckResponse_body_not_object Stdlib.plain
      (sampleResponse 500 "\"plain text reason\"") "\"plain text reason\"" (by decide) rfl
      (by decide)).1⟩

/-! ### What holds of the classifier for every response -/

/-- `CheckResponse` returns no error exactly for the statuses 200 to 299, and
for every other status it returns an `*ErrorResponse`. -/
theorem CheckResponse_nil_iff_success (std : Stdlib) (r : http.Response) :
    ((CheckResponse std r).2 = none ↔ (200 ≤ r.StatusCode ∧ r.StatusCode ≤ 299)) ∧
      (¬ (200 ≤ r.StatusCode ∧ r.StatusCode ≤ 299) →
        ∃ e, (CheckResponse std r).2 = some (GoError.errorResponse e)) := by
  refine ⟨⟨fun h => ?_, fun h => ?_⟩, fun h => ?_⟩
  · by_contra hn
    simp only [CheckResponse, if_neg hn] at h
    cases h
  · simp only [CheckResponse, if_pos h]
  · simp only [CheckResponse, if_neg h]
    exact ⟨_, rfl⟩

/-- `parseBoolResponse` on the error values that carry what it reads: nil gives
`(true, nil)`; an `*ErrorResponse` with a response of status 404 gives
`(false, nil)`; an `*ErrorResponse` with a response of another status, and
every error that is not an `*ErrorResponse`, is returned unchanged with
`false`. -/
theorem parseBoolResponse_cases :
    parseBoolResponse none = Outcome.returns (true, none) ∧
      (∀ (e : ErrorResponse) (resp : http.Response), e.Response = some resp →
        resp.StatusCode = 404 →
        parseBoolResponse (some (GoError.errorResponse e)) = Outcome.returns (false, none)) ∧
      (∀ (e : ErrorResponse) (resp : http.Response), e.Response = some resp →
        resp.StatusCode ≠ 404 →
        parseBoolResponse (some (GoError.errorResponse e)) =
          Outcome.returns (false, some (GoError.errorResponse e))) ∧
      (∀ err : GoError, (∀ e, err ≠ GoError.errorResponse e) →
        parseBoolResponse (some err) = Outcome.returns (false, some err)) := by
  refine ⟨rfl, ?_, ?_, ?_⟩
  · intro e resp he hs
    simp [parseBoolResponse, he, hs]
  · intro e resp he hs
    simp [parseBoolResponse, he, hs]
  · intro err herr
    cases err with
    | errorResponse e => exact absurd rfl (herr e)
    | _ => rfl

theorem decodeErrorsMember_keeps (v : Json) (st : Unmarshaling) :
    (json.decodeErrorsMember v st).1.Response = st.Response ∧
      (json.decodeErrorsMember v st).1.r = st.r ∧
      (json.decodeErrorsMember v st).1.Message = st.Message := by
  unfold json.decodeErrorsMember
  split <;> exact ⟨rfl, rfl, rfl⟩

theorem decodeMember_keeps (std : Stdlib) (k : String) (v : Json) (st : Unmarshaling)
    (hk : json.keyMatches "Response" k = false) :
    (json.decodeMember std k v st).1.Response = st.Response ∧
      (json.decodeMember std k v st).1.r = st.r ∧
      (json.decodeMember std k v st).1.Message = st.Message := by
  unfold json.decodeMember
  simp only [hk, Bool.false_eq_true, if_false]
  by_cases hm : json.keyMatches "Message" k = true
  · rw [if_pos hm]
    exact ⟨rfl, rfl, rfl⟩
  · rw [if_neg hm]
    by_cases he : json.keyMatches "Errors" k = true
    · rw [if_pos he]
      exact decodeErrorsMember_keeps v st
    · rw [if_neg he]
      exact ⟨rfl, rfl, rfl⟩

theorem decodeMembers_keeps (std : Stdlib) (kvs : List (String × Json)) (st : Unmarshaling)
    (hk : (kvs.any fun p => json.keyMatches "Response" p.1) = false) :
    (json.decodeMembers std kvs st).Response = st.Response ∧
      (json.decodeMembers std kvs st).r = st.r ∧
      (json.decodeMembers std kvs st).Message = st.Message := by
  induction kvs generalizing st with
  | nil => exact ⟨rfl, rfl, rfl⟩
  | cons p rest ih =>
    obtain ⟨k, v⟩ := p
    simp only [List.any_cons, Bool.or_eq_false_iff] at hk
    have h1 := decodeMember_keeps std k v st hk.1
    unfold json.decodeMembers
    split
    · exact h1
    · have h2 := ih (json.decodeMember std k v st).1 hk.2
      exact ⟨h2.1.trans h1.1, h2.2.1.trans h1.2.1, h2.2.2.trans h1.2.2⟩

theorem Unmarshal_keeps (std : Stdlib) (data : String) (st : Unmarshaling)
    (hk : json.hasResponseMember data = false) :
    (json.Unmarshal std data st).Response = st.Response ∧
      (json.Unmarshal std data st).r = st.r ∧
      (json.Unmarshal std data st).Message = st.Message := by
  unfold json.Unmarshal
  unfold json.hasResponseMember at hk
  split
  · rename_i kvs hp
    rw [hp] at hk
    exact decodeMembers_keeps std kvs st hk
  · exact ⟨rfl, rfl, rfl⟩

theorem CheckResponse_without_Response_member (std : Stdlib) (r : http.Response)
    (hstatus : ¬ (200 ≤ r.StatusCode ∧ r.StatusCode ≤ 299))
    (hbody : json.hasResponseMember (ioutil.ReadAll r.Body).1 = false) :
    (CheckResponse std r).1 = { r with Body := ioutil.NopCloser (ioutil.ReadAll r.Body).1 } ∧
      ∃ e, (CheckResponse std r).2 = some (GoError.errorResponse e) ∧
        e.Response = some { r with Body := ioutil.NopCloser (ioutil.ReadAll r.Body).1 } ∧
        e.Message = {} := by
  have hU := Unmarshal_keeps std (ioutil.ReadAll r.Body).1 { r := r } hbody
  by_cases herr : (ioutil.ReadAll r.Body).2 = none
  · have hC : CheckResponse std r =
        ({ (json.Unmarshal std (ioutil.ReadAll r.Body).1 { r := r }).r with
            Body := ioutil.NopCloser (ioutil.ReadAll r.Body).1 },
          some (GoError.errorResponse
            ((json.Unmarshal std (ioutil.ReadAll r.Body).1 { r := r }).result
              { (json.Unmarshal std (ioutil.ReadAll r.Body).1 { r := r }).r with
                Body := ioutil.NopCloser (ioutil.ReadAll r.Body).1 }))) := by
      simp only [CheckResponse, if_neg hstatus, herr, if_true]
    rw [hC, hU.2.1]
    refine ⟨rfl, _, rfl, ?_, ?_⟩
    · simp only [Unmarshaling.result, hU.1]
    · simp only [Unmarshaling.result, hU.2.2]
  · have hC : CheckResponse std r =
        ({ r with Body := ioutil.NopCloser (ioutil.ReadAll r.Body).1 },
          some (GoError.errorResponse
            { Response := some { r with Body := ioutil.NopCloser (ioutil.ReadAll r.Body).1 }
              Message := {}, Errors := [] })) := by
      simp only [CheckResponse, if_neg hstatus, herr, if_false]
      rfl
    rw [hC]
    exact ⟨rfl, _, rfl, rfl, rfl⟩

/-- For a response with a status outside [200,299] whose body is not a JSON
object with a member addressed to `Response`, the `ErrorResponse` that
`CheckResponse` returns holds that response, with its status and request and
with the body restored to the bytes read, and its `Message` is the zero
value. -/
theorem CheckResponse_keeps_Response (std : Stdlib) (r : http.Response)
    (hstatus : ¬ (200 ≤ r.StatusCode ∧ r.StatusCode ≤ 299))
    (hbody : json.hasResponseMember (ioutil.ReadAll r.Body).1 = false) :
    (CheckResponse std r).1 = { r with Body := ioutil.NopCloser (ioutil.ReadAll r.Body).1 } ∧
      ∃ e, (CheckResponse std r).2 = some (GoError.errorResponse e) ∧
        e.Response = some { r with Body := ioutil.NopCloser (ioutil.ReadAll r.Body).1 } ∧
        e.Message = {} :=
  CheckResponse_without_Response_member std r hstatus hbody

theorem CheckResponse_keeps_Response_witness :
    ¬ (200 ≤ (sampleResponse 404 "no such adoptee").StatusCode ∧
        (sampleResponse 404 "no such adoptee").StatusCode ≤ 299) ∧
      json.hasResponseMember (ioutil.ReadAll (sampleResponse 404 "no such adoptee").Body).1 = false ∧
      (CheckResponse Stdlib.plain (sampleResponse 404 "no such adoptee")).1 =
        sampleResponse 404 "no such adoptee" :=
  ⟨by decide, by decide,
    (CheckResponse_keeps_Response Stdlib.plain (sampleResponse 404 "no such adoptee")
      (by decide) (by decide)).1⟩

/-- `parseBoolResponse` after `CheckResponse`, for a response whose body is not
a JSON object with a member addressed to `Response`: a status from 200 to 299
gives `(true, nil)`, the status 404 gives `(false, nil)`, and every other
status gives `false` with the error that `CheckResponse` returned. -/
theorem parseBoolResponse_CheckResponse (std : Stdlib) (r : http.Response)
    (hbody : json.hasResponseMember (ioutil.ReadAll r.Body).1 = false) :
    ((200 ≤ r.StatusCode ∧ r.StatusCode ≤ 299) →
        parseBoolResponse (CheckResponse std r).2 = Outcome.returns (true, none)) ∧
      (r.StatusCode = 404 →
        parseBoolResponse (CheckResponse std r).2 = Outcome.returns (false, none)) ∧
      (¬ (200 ≤ r.StatusCode ∧ r.StatusCode ≤ 299) → r.StatusCode ≠ 404 →
        parseBoolResponse (CheckResponse std r).2 =
          Outcome.returns (false, (CheckResponse std r).2)) := by
  refine ⟨fun h => ?_, fun h => ?_, fun h h4 => ?_⟩
  · rw [CheckResponse_of_success std r h]
    rfl
  · have hs : ¬ (200 ≤ r.StatusCode ∧ r.StatusCode ≤ 299) := by omega
    obtain ⟨_, e, he, hr, _⟩ := CheckResponse_without_Response_member std r hs hbody
    rw [he]
    simp [parseBoolResponse, hr, h]
  · obtain ⟨_, e, he, hr, _⟩ := CheckResponse_without_Response_member std r h hbody
    rw [he]
    simp [parseBoolResponse, hr, h4]

theorem parseBoolResponse_CheckResponse_witness :
    json.hasResponseMember (ioutil.ReadAll (sampleResponse 404 "no such adoptee").Body).1 = false ∧
      parseBoolResponse (CheckResponse Stdlib.plain (sampleResponse 404 "no such adoptee")).2 =
        Outcome.returns (false, none) :=
  ⟨by decide,
    (parseBoolResponse_CheckResponse Stdlib.plain (sampleResponse 404 "no such adoptee")
      (by decide)).2.1 rfl⟩

/-! ### Transport failures -/

/-- C11 (counterexample). The context is not done and the transport fails with
a URL error whose URL does not parse (the port is not a number): `Do` returns
that error with the URL it came with; nothing has been rewritten. -/
theorem Do_unparsable_URL_error_unchanged :
    url.Parse "http://localhost:8x/adoptees" = none ∧
      (apiClient (failingTransport
          (GoError.urlError "Get" "http://localhost:8x/adoptees" "connection refused"))).Do
          Stdlib.plain json.noDecoder (some context.Background) getAdoptees none =
        { resp := none
          err := some (GoError.urlError "Get" "http://localhost:8x/adoptees" "connection refused")
          v := none } := by
  exact ⟨by decide, rfl⟩

/-- C11 (amended). `Do` with a context, when the transport returns an error:
if the context is done, `Do` returns no response and what the context's `Err`
returns, whatever the transport error is; if the context is not done, it
returns no response and the transport error, with the URL replaced by the
rendering of its parse when the error is a URL error whose URL parses, and
unchanged otherwise. The target is left as it was. -/
theorem Do_transport_error {α : Type} (std : Stdlib) (dec : json.Decoder α) (c : Client)
    (ctx : context.Context) (req : http.Request) (v : Option (Target α)) (err : GoError)
    (htransport : c.client.Do (withContext ctx req) = Except.error err) :
    (ctx.Done = true →
        c.Do std dec (some ctx) req v = { resp := none, err := ctx.Err.map GoError.other, v := v }) ∧
      (ctx.Done = false → (∀ op raw inner, err ≠ GoError.urlError op raw inner) →
        c.Do std dec (some ctx) req v = { resp := none, err := some err, v := v }) ∧
      (ctx.Done = false → ∀ op raw inner u, err = GoError.urlError op raw inner →
        url.Parse raw = some u →
        c.Do std dec (some ctx) req v =
          { resp := none, err := some (GoError.urlError op (std.URLString u) inner), v := v }) ∧
      (ctx.Done = false → ∀ op raw inner, err = GoError.urlError op raw inner →
        url.Parse raw = none →
        c.Do std dec (some ctx) req v = { resp := none, err := some err, v := v }) := by
  refine ⟨fun hd => ?_, fun hd hne => ?_, fun hd op raw inner u he hp => ?_,
    fun hd op raw inner he hp => ?_⟩
  · simp only [Client.Do, htransport, hd, if_true]
  · cases err with
    | urlError op raw inner => exact absurd rfl (hne op raw inner)
    | _ => simp only [Client.Do, htransport, hd, Bool.false_eq_true, if_false]
  · subst he
    simp only [Client.Do, htransport, hd, Bool.false_eq_true, if_false, hp]
  · subst he
    simp only [Client.Do, htransport, hd, Bool.false_eq_true, if_false, hp]

theorem Do_transport_error_witness :
    (apiClient (failingTransport
        (GoError.urlError "Get" "http://localhost:8080/api/adoptees" "connection refused"))).client.Do
        (withContext { Done := true, Err := some "context deadline exceeded" } getAdoptees) =
        Except.error
          (GoError.urlError "Get" "http://localhost:8080/api/adoptees" "connection refused") ∧
      (apiClient (failingTransport
          (GoError.urlError "Get" "http://localhost:8080/api/adoptees" "connection refused"))).Do
          Stdlib.plain json.noDecoder
          (some { Done := true, Err := some "context deadline exceeded" }) getAdoptees none =
        { resp := none, err := some (GoError.other "context deadline exceeded"), v := none } :=
  ⟨rfl,
    (Do_transport_error Stdlib.plain json.noDecoder
      (apiClient (failingTransport
        (GoError.urlError "Get" "http://localhost:8080/api/adoptees" "connection refused")))
      { Done := true, Err := some "context deadline exceeded" } getAdoptees none
      (GoError.urlError "Get" "http://localhost:8080/api/adoptees" "connection refused")
      rfl).1 rfl⟩

/-! ### Paths of the resource facades -/

theorem path_ne_slash_path (name tail : String) (h : name.data.head? ≠ some '/') :
    "/" ++ name ++ tail ≠ name ++ tail := by
  intro heq
  have hd := congrArg (fun t : String => t.data.head?) heq
  simp only [String.data_append] at hd
  cases hn : name.data with
  | nil =>
    rw [hn] at hd
    have hl := congrArg (fun t : String => t.data.length) heq
    simp only [String.data_append, hn, List.length_append] at hl
    simp at hl
  | cons a rest =>
    rw [hn] at hd h
    simp at hd h
    exact h hd.symm

/-- C12 (the code at the failing input). For the ID 5, the delete methods of
the adoptee, adopter and adoption facades pass a path with a leading slash to
`NewRequest`, where their get methods pass the path without it; only the pet
preference facade deletes at the path it gets. On a client whose base URL has
the path `/api/`, the delete request for adoptee 5 therefore leaves for
`/adoptee/5` and the get request for `/api/adoptee/5`. -/
theorem delete_paths_have_leading_slash :
    (AdopteesService.DeleteAdopteeByID.u 5 = "/adoptee/5" ∧
        AdopteesService.GetAdopteeByID.u 5 = "adoptee/5") ∧
      (AdoptersService.DeleteAdopterByID.u 5 = "/adopter/5" ∧
        AdoptersService.GetAdopterByID.u 5 = "adopter/5") ∧
      (AdoptionsService.DeleteAdoptionByID.u 5 = "/adoption/5" ∧
        AdoptionsService.GetAdoptionByID.u 5 = "adoption/5") ∧
      (PetPreferencesService.DeletePetPreferenceByID.u 5 = "petpref/5" ∧
        PetPreferencesService.GetPetPreferenceByID.u 5 = "petpref/5") ∧
      AdopteesService.DeleteAdopteeByID Stdlib.plain (apiClient echoTransport)
          (some context.Background) 5 =
        Outcome.returns (some (echoed (sentRequest "DELETE" "/adoptee/5")), none) ∧
      AdopteesService.GetAdopteeByID Stdlib.plain (fun _ a => (a, none)) (apiClient echoTransport)
          (some context.Background) 5 =
        Outcome.returns (some {}, some (echoed (sentRequest "GET" "/api/adoptee/5")), none) := by
  refine ⟨⟨by decide, by decide⟩, ⟨by decide, by decide⟩, ⟨by decide, by decide⟩,
    ⟨by decide, by decide⟩, rfl, rfl⟩

/-- The get and edit methods of every facade, and the delete method of the pet
preference facade, pass to `NewRequest` the item path `<name>/<id>` without a
leading slash, for every ID. -/
theorem item_paths_without_slash (id : Int) :
    AdopteesService.GetAdopteeByID.u id = "adoptee/" ++ fmt.int id ∧
      AdopteesService.EditAdopteeByID.u id = "adoptee/" ++ fmt.int id ∧
      AdoptersService.GetAdopterByID.u id = "adopter/" ++ fmt.int id ∧
      AdoptersService.EditAdopterByID.u id = "adopter/" ++ fmt.int id ∧
      AdoptionsService.GetAdoptionByID.u id = "adoption/" ++ fmt.int id ∧
      PetPreferencesService.GetPetPreferenceByID.u id = "petpref/" ++ fmt.int id ∧
      PetPreferencesService.EditPetPreferenceByID.u id = "petpref/" ++ fmt.int id ∧
      PetPreferencesService.DeletePetPreferenceByID.u id = "petpref/" ++ fmt.int id :=
  ⟨rfl, rfl, rfl, rfl, rfl, rfl, rfl, rfl⟩

/-- The delete methods of the adoptee, adopter and adoption facades pass to
`NewRequest`, for every ID, the path of the get method with a slash before it,
which is a different path. -/
theorem delete_paths_differ_from_get_paths (id : Int) :
    (AdopteesService.DeleteAdopteeByID.u id = "/" ++ AdopteesService.GetAdopteeByID.u id ∧
        AdopteesService.DeleteAdopteeByID.u id ≠ AdopteesService.GetAdopteeByID.u id) ∧
      (AdoptersService.DeleteAdopterByID.u id = "/" ++ AdoptersService.GetAdopterByID.u id ∧
        AdoptersService.DeleteAdopterByID.u id ≠ AdoptersService.GetAdopterByID.u id) ∧
      (AdoptionsService.DeleteAdoptionByID.u id = "/" ++ AdoptionsService.GetAdoptionByID.u id ∧
        AdoptionsService.DeleteAdoptionByID.u id ≠ AdoptionsService.GetAdoptionByID.u id) := by
  have h1 := path_ne_slash_path "adoptee/" (fmt.int id) (by decide)
  have h2 := path_ne_slash_path "adopter/" (fmt.int id) (by decide)
  have h3 := path_ne_slash_path "adoption/" (fmt.int id) (by decide)
  exact ⟨⟨rfl, h1⟩, ⟨rfl, h2⟩, ⟨rfl, h3⟩⟩

/-! ### Rendering the error of a response -/

set_option maxRecDepth 8000 in
/-- C13 (the code at the failing input). A response with status 422 whose body
is a JSON object with the member `response` set to `null` next to its
`errors`: `CheckResponse` returns an `*ErrorResponse` with the entry decoded
and a nil `Response`, and `Error()` on it dereferences that pointer and
panics instead of rendering a summary. -/
theorem Error_panics_on_cleared_Response (std : Stdlib) :
    (CheckResponse std (sampleResponse 422 validationBody)).2 =
        some (GoError.errorResponse
          { Response := none
            Message := {}
            Errors := [{ Resource := "Adoptee", Field := "name", Code := "missing_field" }] }) ∧
      ErrorResponse.Error
          { Response := none
            Message := {}
            Errors := [{ Resource := "Adoptee", Field := "name", Code := "missing_field" }] } =
        Outcome.panics :=
  ⟨rfl, rfl⟩

/-- For a response with a status outside [200,299] that holds its request and
whose body is not a JSON object with a member addressed to `Response`,
`Error()` on the error that `CheckResponse` returns is defined and renders the
request method, a colon, the decimal status code, the `Message` (always the
zero `service`, printed as a nil pointer in braces) and the error entries, in
that order. -/
theorem Error_of_CheckResponse (std : Stdlib) (r : http.Response) (rq : http.Request)
    (hstatus : ¬ (200 ≤ r.StatusCode ∧ r.StatusCode ≤ 299))
    (hreq : r.Request = some rq)
    (hbody : json.hasResponseMember (ioutil.ReadAll r.Body).1 = false) :
    ∃ e, (CheckResponse std r).2 = some (GoError.errorResponse e) ∧
      ErrorResponse.Error e =
        Outcome.returns (rq.Method ++ ": " ++ fmt.int r.StatusCode ++ " " ++ "\x7b<nil>\x7d" ++
          " " ++ fmt.errors e.Errors) := by
  obtain ⟨_, e, he, hr, hm⟩ := CheckResponse_without_Response_member std r hstatus hbody
  refine ⟨e, he, ?_⟩
  have h1 : fmt.service {} = "\x7b<nil>\x7d" := by decide
  simp only [ErrorResponse.Error, hr, hreq, hm, h1]

theorem Error_of_CheckResponse_witness :
    ¬ (200 ≤ (sampleResponse 404 "no such adoptee").StatusCode ∧
        (sampleResponse 404 "no such adoptee").StatusCode ≤ 299) ∧
      (sampleResponse 404 "no such adoptee").Request = some sampleRequest ∧
      json.hasResponseMember (ioutil.ReadAll (sampleResponse 404 "no such adoptee").Body).1 = false ∧
      ∃ e, (CheckResponse Stdlib.plain (sampleResponse 404 "no such adoptee")).2 =
          some (GoError.errorResponse e) ∧
        ErrorResponse.Error e =
          Outcome.returns (sampleRequest.Method ++ ": " ++
            fmt.int (sampleResponse 404 "no such adoptee").StatusCode ++ " " ++ "\x7b<nil>\x7d" ++
            " " ++ fmt.errors e.Errors) :=
  ⟨by decide, rfl, by decide,
    Error_of_CheckResponse Stdlib.plain (sampleResponse 404 "no such adoptee") sampleRequest
      (by decide) rfl (by decide)⟩

end animalrescue
